import Mathlib

/-!
# BhimGeet: playback bridge, recently-played ledger and cache gateway

A shallow embedding of the playback part of `src/app.js` and of the service
worker `src/sw.js`:

* the persisted-list read `safeJsonParse` and the module state of lines 31-47,
* the recently-played ledger `addToRecentlyPlayed` (lines 191-196),
* the player teardown paths `goBack` (523-530) and `switchSong` (875-883),
* `loadYoutubeEmbed` / `setupYouTubeListener` and the message handler
  `window._ytMessageHandler` (894-963),
* the install, activate and fetch listeners of `sw.js` over a cache storage of
  named caches, with the outcome of each network fetch given from outside,
* the font size read of line 34 and `getSongOfTheDay` (161-169).

Builtins of the platform (`JSON.parse`, `JSON.stringify`) and the catalog
`SONGS` of `data.js` are parameters, gathered in `Env`.  DOM rendering is kept
only as far as the bridge reads it back: whether `#youtube-container` exists
and what it holds.
-/

namespace BhimGeet

/-! ## Values -/

/-- A JSON value as returned by `JSON.parse`.  `num` is a number with an integer
value, `frac` any other number (kept by its numeral). -/
inductive JVal where
  | null
  | bool (b : Bool)
  | num (n : Int)
  | frac (text : String)
  | str (s : String)
  | arr (items : List JVal)
  | obj (members : List (String × JVal))

/-- A catalog record of `data.js`, with the fields `app.js` reads. -/
structure Song where
  id : Int
  title : String
  lyrics : String
  youtubeId : String
  gradient : String
  deriving DecidableEq, Repr

/-- What the program takes from outside its own source: the catalog `SONGS`,
the builtins `JSON.parse` (`none` when it throws) and `JSON.stringify`, and
whether the page has the `#song-detail` element. -/
structure Env where
  SONGS : List Song
  jsonParse : String → Option JVal
  jsonStringify : List JVal → String
  hasSongDetail : Bool

/-- The function object created by one run of `setupYouTubeListener`: `ident`
tells the objects apart (what `removeEventListener` compares), `song` is the
variable the closure captured. -/
structure Handler where
  ident : Nat
  song : Song
  deriving DecidableEq, Repr

/-- Content of the `#youtube-container` element: the placeholder written by
`renderSongDetail`, nothing (`innerHTML = ""`), or the player frame written by
`loadYoutubeEmbed` (`player` numbers the frames in order of creation). -/
inductive YtContent where
  | placeholder
  | empty
  | iframe (player : Nat) (song : Song)
  deriving DecidableEq, Repr

/-- A pending `setTimeout(() => loadYoutubeEmbed(song), delay)`. -/
structure Timer where
  delay : Nat
  song : Song
  deriving DecidableEq, Repr

/-- The `data` of a message event: a string, or any value that is not one. -/
inductive EventData where
  | text (s : String)
  | other
  deriving DecidableEq, Repr

/-- A `message` event received by the window.  `source` is the player frame
that posted it; the handler never reads it. -/
structure MessageEvent where
  data : EventData
  source : Nat
  deriving DecidableEq, Repr

/-- The module state of `app.js` (lines 31-47) that the playback code touches,
with the parts of the page it reads back. -/
structure State where
  currentPage : String
  currentSong : Option Song
  recentlyPlayed : List JVal
  currentPlayerSongId : Option Int
  autoScrollActive : Bool
  autoPlayNext : Bool
  localStorage : String → Option String
  prevPage : String → Option String
  detailSong : Option Song
  ytContainer : Option YtContent
  ytMessageHandler : Option Handler
  messageListeners : List Handler
  sessions : Nat
  pendingLoads : List Timer
  toasts : List String

/-! ## Persisted state -/

/-- The builtin `Array.isArray` on a parsed value. -/
def isArray : JVal → Bool
  | .arr _ => true
  | _ => false

/-- The elements of a value that is an array. -/
def arrayItems : JVal → List JVal
  | .arr items => items
  | _ => []

/-- The method `localStorage.setItem(key, value)`. -/
def setItem (store : String → Option String) (key value : String) : String → Option String :=
  fun k => if k = key then some value else store k

/-- Lines 19-28.  A missing key or an empty text is `!raw`; a `JSON.parse` that
throws lands in the `catch`. -/
def safeJsonParse (env : Env) (store : String → Option String) (key : String)
    (fallback : JVal) : JVal :=
  match store key with
  | none => fallback
  | some raw =>
    if raw = "" then fallback
    else
      match env.jsonParse raw with
      | none => fallback
      | some parsed =>
        if isArray fallback then (if isArray parsed then parsed else fallback) else parsed

/-- The state after the declarations of lines 31-47 have run against the given
storage. -/
def startup (env : Env) (store : String → Option String) : State :=
  { currentPage := "home"
    currentSong := none
    recentlyPlayed := arrayItems (safeJsonParse env store "bhimgeet_recent" (.arr []))
    currentPlayerSongId := none
    autoScrollActive := false
    autoPlayNext := decide (store "bhimgeet_autoplay" = some "true")
    localStorage := store
    prevPage := fun _ => none
    detailSong := none
    ytContainer := none
    ytMessageHandler := none
    messageListeners := []
    sessions := 0
    pendingLoads := []
    toasts := [] }

/-! ## Recently played -/

/-- The test `id !== songId` of line 192 for a ledger entry `id` and a song id,
which is a number: only an equal number is not strictly different. -/
def strictNe (id : JVal) (songId : Int) : Bool :=
  match id with
  | .num n => decide (n ≠ songId)
  | _ => true

/-- Lines 192-194 on the ledger alone: filter, unshift, slice when longer
than 20. -/
def recentlyPlayedAfter (songId : Int) (recentlyPlayed : List JVal) : List JVal :=
  let filtered := recentlyPlayed.filter (fun id => strictNe id songId)
  let unshifted := JVal.num songId :: filtered
  if unshifted.length > 20 then unshifted.take 20 else unshifted

/-- Lines 191-196. -/
def addToRecentlyPlayed (env : Env) (songId : Int) (st : State) : State :=
  let recent := recentlyPlayedAfter songId st.recentlyPlayed
  { st with
    recentlyPlayed := recent
    localStorage := setItem st.localStorage "bhimgeet_recent" (env.jsonStringify recent) }

/-- Playing the songs `ids` one after the other, seen on the ledger. -/
def playAll (ids : List Int) (recentlyPlayed : List JVal) : List JVal :=
  ids.foldl (fun acc songId => recentlyPlayedAfter songId acc) recentlyPlayed

/-! ## Page and player -/

/-- Lines 443-452; the scroll bar it removes is not part of the state. -/
def stopAutoScroll (st : State) : State :=
  { st with autoScrollActive := false }

/-- Lines 608-675: the template replaces the content of `#song-detail`, so
`#youtube-container` exists afterwards and holds the placeholder. -/
def renderSongDetail (env : Env) (song : Song) (st : State) : State :=
  if env.hasSongDetail then
    { st with ytContainer := some .placeholder, detailSong := some song }
  else st

/-- Lines 490-521, the state it keeps: the page shown and where `goBack` leads
from it.  Line 520 throws for a page name without an element; the program passes
only the names of its five pages, so the function is taken as total. -/
def navigateTo (page : String) (st : State) : State :=
  let prev := st.currentPage
  { st with
    currentPage := page
    prevPage := fun p =>
      if p = page then some (if prev ≠ "song" then prev else "home") else st.prevPage p }

/-- The statement `if (ytContainer) ytContainer.innerHTML = ""`. -/
def clearYtContainer (st : State) : State :=
  { st with ytContainer := st.ytContainer.map (fun _ => YtContent.empty) }

/-- Lines 523-530. -/
def goBack (st : State) : State :=
  let st1 := clearYtContainer (stopAutoScroll st)
  let st2 := { st1 with currentPlayerSongId := none }
  let prev :=
    match st2.prevPage st2.currentPage with
    | some p => if p = "" then "home" else p
    | none => "home"
  navigateTo prev st2

/-- Lines 875-883. -/
def switchSong (env : Env) (newSong : Song) (st : State) : State :=
  let st1 := { st with currentSong := some newSong }
  let st2 := clearYtContainer (stopAutoScroll st1)
  let st3 := { st2 with currentPlayerSongId := none }
  renderSongDetail env newSong st3

/-- Lines 914-954: the previous function object, if any, is removed from the
window, a new one closing over `song` is stored and registered. -/
def setupYouTubeListener (song : Song) (st : State) : State :=
  let listeners :=
    match st.ytMessageHandler with
    | some old => st.messageListeners.erase old
    | none => st.messageListeners
  let handler : Handler := { ident := st.sessions, song := song }
  { st with
    ytMessageHandler := some handler
    messageListeners := listeners ++ [handler]
    sessions := st.sessions + 1 }

/-- Lines 894-912. -/
def loadYoutubeEmbed (env : Env) (song : Song) (st : State) : State :=
  match st.ytContainer with
  | none => st
  | some _ =>
    let st1 := { st with currentPlayerSongId := some song.id }
    let st2 := addToRecentlyPlayed env song.id st1
    let st3 := { st2 with ytContainer := some (.iframe st2.sessions song) }
    setupYouTubeListener song st3

/-- Lines 1099-1106, as the list of messages shown. -/
def showToast (message : String) (st : State) : State :=
  { st with toasts := st.toasts ++ [message] }

/-- Reading the property `key` of a parsed value that is not `null`: only an
object has own entries; `none` is `undefined`. -/
def getProp (data : JVal) (key : String) : Option JVal :=
  match data with
  | .obj members => members.lookup key
  | _ => none

/-- The block shared by lines 929-936 (`delay` 400) and 942-949 (`delay` 800):
find the entry after `song` and, if there is one, show it and schedule its
start. -/
def playNext (env : Env) (song : Song) (delay : Nat) (st : State) : State :=
  match env.SONGS.find? (fun s => decide (s.id = song.id + 1)) with
  | none => st
  | some next =>
    let st1 := { st with currentSong := some next }
    let st2 := renderSongDetail env next (stopAutoScroll st1)
    { st2 with pendingLoads := st2.pendingLoads ++ [{ delay := delay, song := next }] }

/-- The first test of the handler, lines 925-938. -/
def onStateChange (env : Env) (song : Song) (data : JVal) (st : State) : State :=
  match getProp data "event" with
  | some (.str "onStateChange") =>
    match getProp data "info" with
    | some (.num 0) => if st.autoPlayNext then playNext env song 400 st else st
    | _ => st
  | _ => st

/-- The second test of the handler, lines 939-950. -/
def onError (env : Env) (song : Song) (data : JVal) (st : State) : State :=
  match getProp data "event" with
  | some (.str "onError") => playNext env song 800 (showToast "Video unavailable, skipping..." st)
  | _ => st

/-- The function stored in `window._ytMessageHandler` by
`setupYouTubeListener(song)`, lines 920-952.  Reading a property of `null`
throws inside the `try`, before anything was changed. -/
def ytMessageHandler (env : Env) (song : Song) (e : MessageEvent) (st : State) : State :=
  match e.data with
  | .other => st
  | .text s =>
    if s = "" then st
    else
      match env.jsonParse s with
      | none => st
      | some .null => st
      | some data => onError env song data (onStateChange env song data st)

/-- The window dispatching a `message` event: every registered listener runs,
in order of registration. -/
def dispatchMessage (env : Env) (e : MessageEvent) (st : State) : State :=
  st.messageListeners.foldl (fun acc h => ytMessageHandler env h.song e acc) st

/-- A pending timer firing: it leaves the queue and its callback runs. -/
def fireTimer (env : Env) (t : Timer) (st : State) : State :=
  loadYoutubeEmbed env t.song { st with pendingLoads := st.pendingLoads.erase t }

/-- The click handler `playFn` of line 790, bound for the song shown. -/
def playFn (env : Env) (song : Song) (st : State) : State :=
  addToRecentlyPlayed env song.id (loadYoutubeEmbed env song st)

/-- Lines 725-729: a click on a song card. -/
def openSong (env : Env) (song : Song) (st : State) : State :=
  navigateTo "song" (renderSongDetail env song { st with currentSong := some song })

/-- Lines 217-223, for the song the random draw gave. -/
def playRandomSong (env : Env) (song : Song) (st : State) : State :=
  let st1 := navigateTo "song" (renderSongDetail env song { st with currentSong := some song })
  { st1 with pendingLoads := st1.pendingLoads ++ [{ delay := 300, song := song }] }

/-- Lines 862-867: the auto-play switch. -/
def toggleAutoPlay (st : State) : State :=
  showToast (if !st.autoPlayNext then "Auto-play on" else "Auto-play off")
    { st with
      autoPlayNext := !st.autoPlayNext
      localStorage :=
        setItem st.localStorage "bhimgeet_autoplay" (toString (!st.autoPlayNext)) }

/-! ## Runs of the program -/

/-- What can happen to the running page: clicks, a message arriving, a timer
firing. -/
inductive Action where
  | openSong (song : Song)
  | play
  | switchSong (newSong : Song)
  | goBack
  | navigate (page : String)
  | toggleAutoPlay
  | shuffle (song : Song)
  | message (e : MessageEvent)
  | timer (t : Timer)

/-- The effect of one action.  Clicks are not tied to the buttons the page shows
at the moment, so the runs below include every run of the program. -/
def step (env : Env) (a : Action) (st : State) : State :=
  match a with
  | .openSong song => openSong env song st
  | .play =>
    match st.detailSong with
    | some song => playFn env song st
    | none => st
  | .switchSong newSong => switchSong env newSong st
  | .goBack => goBack st
  | .navigate page => navigateTo page st
  | .toggleAutoPlay => toggleAutoPlay st
  | .shuffle song => playRandomSong env song st
  | .message e => dispatchMessage env e st
  | .timer t => if t ∈ st.pendingLoads then fireTimer env t st else st

/-- The state after a list of actions. -/
def run (env : Env) (actions : List Action) (st : State) : State :=
  actions.foldl (fun acc a => step env a acc) st

/-- The states the page can be in: those reached from a startup by actions. -/
def Reachable (env : Env) (st : State) : Prop :=
  ∃ store actions, st = run env actions (startup env store)

/-! ## Notifications -/

/-- The value the handler works on: the parse of a non-empty string `data`. -/
def parsedData (env : Env) (e : MessageEvent) : Option JVal :=
  match e.data with
  | .text s => if s = "" then none else env.jsonParse s
  | .other => none

/-- An *ended* notification: `event` is `"onStateChange"` and `info` is 0. -/
def IsEnded (env : Env) (e : MessageEvent) : Prop :=
  ∃ data, parsedData env e = some data
    ∧ getProp data "event" = some (.str "onStateChange")
    ∧ getProp data "info" = some (.num 0)

/-- An *error* notification: `event` is `"onError"`, with any `info`. -/
def IsError (env : Env) (e : MessageEvent) : Prop :=
  ∃ data, parsedData env e = some data ∧ getProp data "event" = some (.str "onError")

/-- The catalog entry right after `song`, as the handler looks it up. -/
def nextOf (env : Env) (song : Song) : Option Song :=
  env.SONGS.find? (fun s => decide (s.id = song.id + 1))

/-- The window holds exactly the listener stored in `window._ytMessageHandler`,
and every listener was created in an earlier session. -/
def ListenerInv (st : State) : Prop :=
  st.messageListeners = st.ytMessageHandler.toList
    ∧ ∀ h ∈ st.messageListeners, h.ident < st.sessions

/-! ## Reading the ledger -/

/-- The song ids among the entries of a ledger, in order. -/
def positions (recentlyPlayed : List JVal) : List Int :=
  recentlyPlayed.filterMap (fun v => match v with
    | .num n => some n
    | _ => none)

/-! ## Sample data for the concrete runs -/

/-- A catalog record with the given id and empty texts. -/
def sampleSong (n : Int) : Song :=
  { id := n, title := "", lyrics := "", youtubeId := "", gradient := "" }

/-- The text the player posts when a video has ended. -/
def endedText : String := "\x7b\"event\":\"onStateChange\",\"info\":0\x7d"

/-- The text the player posts when a video cannot be played (code 150). -/
def errorText : String := "\x7b\"event\":\"onError\",\"info\":150\x7d"

/-- A stored ledger of 21 song ids. -/
def longLedgerText : String := "[1,2,3,4,5,6,7,8,9,10,11,12,13,14,15,16,17,18,19,20,21]"

/-- The builtin `JSON.parse` on the three texts above; the concrete runs parse no
other text. -/
def sampleParse (s : String) : Option JVal :=
  if s = endedText then
    some (.obj [("event", .str "onStateChange"), ("info", .num 0)])
  else if s = errorText then
    some (.obj [("event", .str "onError"), ("info", .num 150)])
  else if s = longLedgerText then
    some (.arr ((List.range 21).map (fun i => JVal.num (Int.ofNat i + 1))))
  else none

/-- A page with `#song-detail` and a catalog of `n` songs with ids `1..n`. -/
def sampleEnv (n : Nat) : Env :=
  { SONGS := (List.range n).map (fun i => sampleSong (Int.ofNat i + 1))
    jsonParse := sampleParse
    jsonStringify := fun _ => ""
    hasSongDetail := true }

/-- A storage holding only the 21-entry ledger. -/
def longLedgerStore : String → Option String :=
  fun k => if k = "bhimgeet_recent" then some longLedgerText else none

/-- An empty storage. -/
def emptyStore : String → Option String := fun _ => none

/-- The builtin `JSON.parse` on a few more texts: JSON `null`, a number, an
empty array, and a state change that is not the end of the video. -/
def sampleParseMore (s : String) : Option JVal :=
  if s = "null" then some .null
  else if s = "42" then some (.num 42)
  else if s = "[]" then some (.arr [])
  else if s = "\x7b\"event\":\"onStateChange\",\"info\":1\x7d" then
    some (.obj [("event", .str "onStateChange"), ("info", .num 1)])
  else sampleParse s

/-- The page of `sampleEnv`, parsing with `sampleParseMore`. -/
def sampleEnvMore (n : Nat) : Env :=
  { sampleEnv n with jsonParse := sampleParseMore }

/-! ## The service worker (`src/sw.js`) -/

/-- The request of a fetch event, with the fields the worker reads. -/
structure Request where
  method : String
  url : String
  mode : String
  deriving DecidableEq, Repr

/-- A response: the two fields the worker tests, and its body. -/
structure Response where
  status : Nat
  type : String
  body : String
  deriving DecidableEq, Repr

/-- One cache: its entries, keyed by the URL of the request. -/
abbrev Cache := List (String × Response)

/-- The cache storage of the origin: the named caches in order of creation. -/
abbrev CacheStorage := List (String × Cache)

/-- Line 3. -/
def CACHE_NAME : String := "bhimgeet-v5"

/-- Lines 4-11. -/
def ASSETS : List String :=
  ["/", "/index.html", "/style.css?v=5", "/app.js?v=5", "/data.js?v=5", "/manifest.json"]

/-- The builtin `String.prototype.includes`: `needle` occurs somewhere in `s`. -/
def includes (s needle : String) : Bool :=
  decide (needle.data <:+: s.data)

/-- The method `cache.match(request)`: the entry stored under the URL. -/
def cacheMatch (c : Cache) (url : String) : Option Response :=
  c.lookup url

/-- The method `cache.put(request, response)`: an entry under the same URL is
replaced. -/
def cachePut (c : Cache) (url : String) (r : Response) : Cache :=
  c.filter (fun entry => decide (entry.1 ≠ url)) ++ [(url, r)]

/-- The method `caches.keys()`. -/
def cachesKeys (cs : CacheStorage) : List String :=
  cs.map (fun p => p.1)

/-- The method `caches.open(name)`: the cache is created when it does not
exist. -/
def cachesOpen (cs : CacheStorage) (name : String) : CacheStorage :=
  if name ∈ cachesKeys cs then cs else cs ++ [(name, [])]

/-- The method `caches.delete(name)`. -/
def cachesDelete (cs : CacheStorage) (name : String) : CacheStorage :=
  cs.filter (fun p => decide (p.1 ≠ name))

/-- The method `caches.match(request)`: the first match over all caches, in
order of creation. -/
def cachesMatch (cs : CacheStorage) (url : String) : Option Response :=
  cs.findSome? (fun p => cacheMatch p.2 url)

/-- The chain `caches.open(name).then((cache) => cache.put(request, response))`. -/
def cachesPut (cs : CacheStorage) (name url : String) (r : Response) : CacheStorage :=
  (cachesOpen cs name).map (fun p => if p.1 = name then (p.1, cachePut p.2 url r) else p)

/-- The entries of the cache called `name`, if it exists. -/
def cacheNamed (cs : CacheStorage) (name : String) : Option Cache :=
  cs.lookup name

/-- The entry for `url` in the current generation, the cache `CACHE_NAME`. -/
def currentEntry (cs : CacheStorage) (url : String) : Option Response :=
  (cacheNamed cs CACHE_NAME).bind (fun c => cacheMatch c url)

/-- What a run of the fetch listener did besides settling its promise. -/
inductive Effect where
  | fetch (url : String)
  | cachesOpen (name : String)
  | cachePut (name url : String)
  | cachesMatch (url : String)
  deriving DecidableEq, Repr

/-- How the promise given to `event.respondWith` settled: fulfilled with a
response or with `undefined`, or rejected. -/
inductive Settled where
  | fulfilled (value : Option Response)
  | rejected
  deriving DecidableEq, Repr

/-- The result of one run of the fetch listener: the promise handed to
`respondWith` (`none` when the listener returned without calling it), the cache
storage afterwards and the effects in order. -/
structure FetchOutcome where
  respondWith : Option Settled
  caches : CacheStorage
  effects : List Effect
  deriving DecidableEq, Repr

/-- The listener returning before `respondWith`. -/
def passThrough (cs : CacheStorage) : FetchOutcome :=
  { respondWith := none, caches := cs, effects := [] }

/-- Lines 34-57.  `network` is the outcome of `fetch(event.request)`: the
response it resolves with, or `none` when it rejects.  `origin` is the origin
of the worker, against which `"/index.html"` is resolved.  The write of line 45
is taken as completed. -/
def onFetch (origin : String) (network : Request → Option Response) (request : Request)
    (cs : CacheStorage) : FetchOutcome :=
  if request.method ≠ "GET" then passThrough cs
  else if includes request.url "youtube.com" then passThrough cs
  else if includes request.url "googleapis.com" then passThrough cs
  else if includes request.url "img.youtube.com" then passThrough cs
  else
    match network request with
    | some response =>
      if response.status = 200 ∧ response.type = "basic" then
        { respondWith := some (.fulfilled (some response))
          caches := cachesPut cs CACHE_NAME request.url response
          effects := [.fetch request.url, .cachesOpen CACHE_NAME,
            .cachePut CACHE_NAME request.url] }
      else
        { respondWith := some (.fulfilled (some response))
          caches := cs
          effects := [.fetch request.url] }
    | none =>
      match cachesMatch cs request.url with
      | some cached =>
        { respondWith := some (.fulfilled (some cached))
          caches := cs
          effects := [.fetch request.url, .cachesMatch request.url] }
      | none =>
        if request.mode = "navigate" then
          { respondWith := some (.fulfilled (cachesMatch cs (origin ++ "/index.html")))
            caches := cs
            effects := [.fetch request.url, .cachesMatch request.url,
              .cachesMatch (origin ++ "/index.html")] }
        else
          { respondWith := some (.fulfilled none)
            caches := cs
            effects := [.fetch request.url, .cachesMatch request.url] }

/-- What the page that made the request gets (`none` is a network error): the
browser's own fetch when the listener did not call `respondWith`, the response
the promise was fulfilled with, and a network error when the promise was
rejected or fulfilled with something that is not a response. -/
def callerOutcome (network : Request → Option Response) (request : Request)
    (o : FetchOutcome) : Option Response :=
  match o.respondWith with
  | none => network request
  | some (.fulfilled (some r)) => some r
  | some (.fulfilled none) => none
  | some .rejected => none

/-- The request `cache.addAll` makes for a path of `ASSETS`. -/
def assetRequest (origin path : String) : Request :=
  { method := "GET", url := origin ++ path, mode := "cors" }

/-- The fetches of `cache.addAll`: all of them must resolve with a status in
200-299, or the whole call rejects. -/
def fetchAll (origin : String) (network : Request → Option Response) :
    List String → Option (List (String × Response))
  | [] => some []
  | path :: rest =>
    match network (assetRequest origin path) with
    | some r =>
      if 200 ≤ r.status ∧ r.status ≤ 299 then
        (fetchAll origin network rest).map (fun entries => (origin ++ path, r) :: entries)
      else none
    | none => none

/-- Lines 14-19: the cache is opened and, when every asset could be fetched,
filled; the flag tells whether the install step succeeded. -/
def onInstall (origin : String) (network : Request → Option Response) (cs : CacheStorage) :
    CacheStorage × Bool :=
  let opened := cachesOpen cs CACHE_NAME
  match fetchAll origin network ASSETS with
  | some entries =>
    (entries.foldl (fun acc entry => cachesPut acc CACHE_NAME entry.1 entry.2) opened, true)
  | none => (opened, false)

/-- Lines 22-31. -/
def onActivate (cs : CacheStorage) : CacheStorage :=
  ((cachesKeys cs).filter (fun key => decide (key ≠ CACHE_NAME))).foldl cachesDelete cs

/-- The storages the worker serves requests from: what a successful install
followed by the activation leaves, from a storage with distinct cache names,
and what fetch events make of it afterwards. -/
inductive Serving (origin : String) : CacheStorage → Prop where
  | activated (cs : CacheStorage) (network : Request → Option Response) :
      (cachesKeys cs).Nodup → (onInstall origin network cs).2 = true →
      Serving origin (onActivate (onInstall origin network cs).1)
  | fetched (cs : CacheStorage) (network : Request → Option Response) (request : Request) :
      Serving origin cs → Serving origin (onFetch origin network request cs).caches

/-- The storage after a list of fetch events, each with the request and the
network as it was then. -/
def runFetches (origin : String) (events : List (Request × (Request → Option Response)))
    (cs : CacheStorage) : CacheStorage :=
  events.foldl (fun acc ev => (onFetch origin ev.2 ev.1 acc).caches) cs

/-- A serialized URL by its parts: `rest` is the port, path and query. -/
structure Url where
  scheme : String
  host : String
  rest : String
  deriving DecidableEq, Repr

/-- The text of the URL, as `request.url` gives it. -/
def Url.href (u : Url) : String :=
  u.scheme ++ "://" ++ u.host ++ u.rest

/-- The host is `domain` or one of its subdomains. -/
def InDomain (host domain : String) : Prop :=
  host = domain ∨ ("." ++ domain).data <:+ host.data

/-- The host is one of the third-party media and API hosts. -/
def ThirdParty (host : String) : Prop :=
  InDomain host "youtube.com" ∨ InDomain host "img.youtube.com" ∨ InDomain host "googleapis.com"

/-- The listener goes on to `respondWith`: a GET whose URL text has neither
`youtube.com` nor `googleapis.com` in it. -/
def Intercepted (request : Request) : Prop :=
  request.method = "GET" ∧ includes request.url "youtube.com" = false
    ∧ includes request.url "googleapis.com" = false

/-- The origin of the sample worker. -/
def sampleOrigin : String := "https://bhimgeet.example"

/-- A network that answers every request with status 200, type `basic` and the
URL as body. -/
def onlineNetwork : Request → Option Response :=
  fun request => some { status := 200, type := "basic", body := request.url }

/-- A network on which every fetch rejects. -/
def offlineNetwork : Request → Option Response := fun _ => none

/-- The storage after install and activation on the online network, from an
empty storage. -/
def servingStore : CacheStorage :=
  onActivate (onInstall sampleOrigin onlineNetwork []).1

/-- A GET for a page of the sample origin. -/
def sampleGet (path mode : String) : Request :=
  { method := "GET", url := sampleOrigin ++ path, mode := mode }

/-! ## Font size (`src/app.js`, lines 34 and 816-817) -/

/-- The white space the builtin `parseInt` skips at the start of its input. -/
def isStrWhiteSpace (c : Char) : Bool :=
  decide (c.toNat ∈ [9, 10, 11, 12, 13, 32, 160, 0x1680, 0x2028, 0x2029, 0x202F, 0x205F,
    0x3000, 0xFEFF]) || (decide (0x2000 ≤ c.toNat) && decide (c.toNat ≤ 0x200A))

/-- A decimal digit. -/
def isDecimalDigit (c : Char) : Bool :=
  decide (48 ≤ c.toNat) && decide (c.toNat ≤ 57)

/-- The builtin `parseInt(text, 10)`: leading white space is skipped, a sign is
read, then the longest run of decimal digits; without a digit the result is
`NaN`, here `none`.  The value is the exact integer; the builtin rounds it to a
double, which differs only for runs of more than 15 digits. -/
def parseInt10 (text : String) : Option Int :=
  let trimmed := text.data.dropWhile isStrWhiteSpace
  let negative := decide (trimmed.head? = some (Char.ofNat 45))
  let unsigned :=
    if trimmed.head? = some (Char.ofNat 45) ∨ trimmed.head? = some (Char.ofNat 43) then
      trimmed.tail
    else trimmed
  let digits := unsigned.takeWhile isDecimalDigit
  if digits = [] then none
  else
    let value : Int := Int.ofNat (digits.foldl (fun acc c => acc * 10 + (c.toNat - 48)) 0)
    some (if negative then -value else value)

/-- Line 34: the font size the program starts with; `none` is `NaN`. -/
def fontSize (store : String → Option String) : Option Int :=
  parseInt10
    (match store "bhimgeet_fontsize" with
      | some raw => if raw = "" then "16" else raw
      | none => "16")

/-- Line 816, the click on `A+`: a comparison with `NaN` is false. -/
def fontIncrease (size : Option Int) : Option Int :=
  match size with
  | some n => if n < 28 then some (n + 2) else some n
  | none => none

/-- Line 817, the click on `A-`. -/
def fontDecrease (size : Option Int) : Option Int :=
  match size with
  | some n => if n > 12 then some (n - 2) else some n
  | none => none

/-- A storage holding the given text as font size. -/
def fontStore (text : String) : String → Option String :=
  fun k => if k = "bhimgeet_fontsize" then some text else none

/-! ## Song of the day (`src/app.js`, lines 161-169) -/

/-- The conversion of an integer to a signed 32-bit integer, as `| 0` and `<<`
do it. -/
def toInt32 (x : Int) : Int :=
  (x + 2147483648) % 4294967296 - 2147483648

/-- The UTF-16 code units of a character, which `charCodeAt` reads. -/
def codeUnitsOf (c : Char) : List Nat :=
  if c.toNat < 65536 then [c.toNat]
  else [55296 + (c.toNat - 65536) / 1024, 56320 + (c.toNat - 65536) % 1024]

/-- The code units of a string, in order. -/
def codeUnits (text : String) : List Nat :=
  text.data.flatMap codeUnitsOf

/-- One round of the loop, lines 165-166: `hash << 5` is a 32-bit shift, the
subtraction and the addition are exact, and `hash |= 0` wraps the sum. -/
def hashStep (hash : Int) (code : Nat) : Int :=
  toInt32 ((toInt32 (hash * 32) - hash) + Int.ofNat code)

/-- Lines 163-167. -/
def dateHash (dateStr : String) : Int :=
  (codeUnits dateStr).foldl hashStep 0

/-- Line 168, for the text `toDateString` gave: the entry at index
`Math.abs(hash) % SONGS.length`, `none` when there is none. -/
def getSongOfTheDay (env : Env) (dateStr : String) : Option Song :=
  env.SONGS[(dateHash dateStr).natAbs % env.SONGS.length]?

/-! ## The skip-forward loop -/

/-- One round of the loop: the player of the session reports `e`, the window
dispatches it, and the load this scheduled, if any, fires. The result is the
song started and the state, or `none` when nothing was scheduled. -/
def skipStep (env : Env) (e : MessageEvent) (st : State) : Option (Song × State) :=
  match (dispatchMessage env e st).pendingLoads with
  | [] => none
  | t :: _ => some (t.song, fireTimer env t (dispatchMessage env e st))

/-- The rounds of the loop, at most `fuel` of them: the ids of the songs started,
in order, and whether the loop came to a stop by itself. -/
def skipRun (env : Env) (e : MessageEvent) : Nat → State → List Int × Bool
  | 0, _ => ([], false)
  | fuel + 1, st =>
    match skipStep env e st with
    | none => ([], true)
    | some (song, st1) => (song.id :: (skipRun env e fuel st1).1, (skipRun env e fuel st1).2)

/-- The catalog has the positions 1 to `n`, in order. -/
def DenseCatalog (env : Env) (n : Nat) : Prop :=
  env.SONGS.map (fun s => s.id) = (List.range n).map (fun i => Int.ofNat i + 1)

/-- The session of `song` is the one running: its listener is the only one on
the window, the container of the player is on the page and no load is
pending. -/
def Playing (st : State) (song : Song) : Prop :=
  ListenerInv st ∧ (∃ h, st.messageListeners = [h] ∧ h.song = song)
    ∧ st.ytContainer ≠ none ∧ st.pendingLoads = []

/-! ## The ledger: lemmas -/

theorem recentlyPlayedAfter_eq_take (x : Int) (L : List JVal) :
    recentlyPlayedAfter x L = (JVal.num x :: L.filter (fun id => strictNe id x)).take 20 := by
  unfold recentlyPlayedAfter
  simp only
  split
  · rfl
  · rw [List.take_of_length_le]
    omega

theorem filter_strictNe_map_num (x : Int) (L : List Int) :
    (L.map JVal.num).filter (fun id => strictNe id x)
      = (L.filter (fun y => decide (y ≠ x))).map JVal.num := by
  induction L with
  | nil => rfl
  | cons a t ih =>
    by_cases h : a = x
    · simp [strictNe, h, List.filter_cons] at ih ⊢
      exact ih
    · simp [strictNe, h, List.filter_cons] at ih ⊢
      exact ih

theorem recentlyPlayedAfter_length_le (x : Int) (L : List JVal) :
    (recentlyPlayedAfter x L).length ≤ 20 := by
  rw [recentlyPlayedAfter_eq_take]
  simp [List.length_take]

theorem playAll_snoc (ids : List Int) (x : Int) (L : List JVal) :
    playAll (ids ++ [x]) L = recentlyPlayedAfter x (playAll ids L) := by
  simp [playAll, List.foldl_append]

theorem playAll_length_le (x : Int) (ids : List Int) (L : List JVal) :
    (playAll (x :: ids) L).length ≤ 20 := by
  induction ids using List.reverseRecOn generalizing x L with
  | nil => exact recentlyPlayedAfter_length_le x L
  | append_singleton l a _ =>
    rw [← List.cons_append, playAll_snoc]
    exact recentlyPlayedAfter_length_le a _

theorem positions_filter_strictNe (x : Int) (L : List JVal) :
    positions (L.filter (fun id => strictNe id x))
      = (positions L).filter (fun y => decide (y ≠ x)) := by
  induction L with
  | nil => rfl
  | cons a t ih =>
    cases a <;> simp [positions, strictNe, List.filter_cons] at ih ⊢ <;> try exact ih
    rename_i n
    by_cases h : n = x <;> simp [h] <;> exact ih

theorem positions_sublist {A B : List JVal} (h : A.Sublist B) :
    (positions A).Sublist (positions B) :=
  h.filterMap _

theorem playAll_nodup_eq (ids : List Int) (h : ids.Nodup) :
    playAll ids [] = (ids.reverse.take 20).map JVal.num := by
  induction ids using List.reverseRecOn with
  | nil => rfl
  | append_singleton l a ih =>
    have hl : l.Nodup := (List.nodup_append.1 h).1
    have ha : a ∉ l := by
      intro hmem
      have := (List.nodup_append.1 h).2.2
      exact this hmem (by simp)
    rw [playAll_snoc, ih hl, recentlyPlayedAfter_eq_take, filter_strictNe_map_num]
    have hf : (l.reverse.take 20).filter (fun y => decide (y ≠ a)) = l.reverse.take 20 := by
      apply List.filter_eq_self.2
      intro y hy
      have : y ∈ l := by
        have := List.mem_of_mem_take hy
        simpa using this
      simp
      rintro rfl
      exact ha this
    rw [hf, List.reverse_append]
    simp [List.take_succ_cons, List.take_take, List.map_take]

/-! ## The ledger: claims -/

/-- C7. `addToRecentlyPlayed(x)` sets the ledger to the first 20 entries of `x`
followed by the old ledger without the entries equal to `x`, in their old order:
for any ledger, and read on a ledger `L` of positions; playing 3, 1, 3, 2 from
the empty ledger gives `[2, 3, 1]`. -/
theorem addToRecentlyPlayed_move_to_front (env : Env) (st : State) (x : Int) (L : List Int) :
    (addToRecentlyPlayed env x st).recentlyPlayed
        = (JVal.num x :: st.recentlyPlayed.filter (fun id => strictNe id x)).take 20
    ∧ (addToRecentlyPlayed env x { st with recentlyPlayed := L.map JVal.num }).recentlyPlayed
        = ((x :: L.filter (fun y => decide (y ≠ x))).take 20).map JVal.num
    ∧ playAll [3, 1, 3, 2] [] = [JVal.num 2, JVal.num 3, JVal.num 1] := by
  refine ⟨recentlyPlayedAfter_eq_take x st.recentlyPlayed, ?_, rfl⟩
  show recentlyPlayedAfter x (L.map JVal.num) = _
  rw [recentlyPlayedAfter_eq_take, filter_strictNe_map_num]
  simp [List.map_take]

/-- C8, as stated, fails at startup: a stored ledger of 21 entries is loaded as
it is, and the program starts with a ledger longer than 20. -/
theorem startup_ledger_exceeds_cap :
    ¬ ((startup (sampleEnv 3) longLedgerStore).recentlyPlayed.length ≤ 20) := by
  decide

/-- C8, amended. After a play the ledger has at most 20 entries, whatever it
held before: for the play itself and for every sequence of plays that follows,
from any state, in particular from the state loaded at startup from any
storage. -/
theorem ledger_capped_after_play (env : Env) (st : State) (store : String → Option String)
    (x : Int) (ids : List Int) :
    (addToRecentlyPlayed env x st).recentlyPlayed.length ≤ 20
    ∧ (playAll (x :: ids) st.recentlyPlayed).length ≤ 20
    ∧ (playAll (x :: ids) (startup env store).recentlyPlayed).length ≤ 20 :=
  ⟨recentlyPlayedAfter_length_le x st.recentlyPlayed, playAll_length_le x ids _,
    playAll_length_le x ids _⟩

/-- C9. Playing pairwise distinct positions from the empty ledger leaves the
last `min n 20` of them, most recent first. -/
theorem playAll_distinct (ids : List Int) (h : ids.Nodup) :
    playAll ids [] = (ids.reverse.take 20).map JVal.num
    ∧ (playAll ids []).length = min ids.length 20 := by
  have e := playAll_nodup_eq ids h
  refine ⟨e, ?_⟩
  rw [e]
  simp [List.length_take, Nat.min_comm]

/-- C9 at 25 plays: positions 1 to 25 leave 25, 24, ..., 6. -/
theorem playAll_distinct_witness :
    ([1, 2, 3, 4, 5, 6, 7, 8, 9, 10, 11, 12, 13, 14, 15, 16, 17, 18, 19, 20, 21, 22, 23, 24,
        25] : List Int).Nodup
    ∧ playAll [1, 2, 3, 4, 5, 6, 7, 8, 9, 10, 11, 12, 13, 14, 15, 16, 17, 18, 19, 20, 21, 22,
        23, 24, 25] []
      = ([25, 24, 23, 22, 21, 20, 19, 18, 17, 16, 15, 14, 13, 12, 11, 10, 9, 8, 7,
        6] : List Int).map JVal.num :=
  ⟨by decide, (playAll_distinct _ (by decide)).1⟩

/-- C10. If no position occurs twice in the ledger before
`addToRecentlyPlayed(x)`, none does afterwards; and for every prior ledger `x`
is the first entry afterwards and occurs exactly once. -/
theorem ledger_deduplicated (env : Env) (st : State) (x : Int) :
    ((positions st.recentlyPlayed).Nodup →
        (positions (addToRecentlyPlayed env x st).recentlyPlayed).Nodup)
    ∧ (addToRecentlyPlayed env x st).recentlyPlayed.head? = some (JVal.num x)
    ∧ (positions (addToRecentlyPlayed env x st).recentlyPlayed).count x = 1 := by
  show ((positions st.recentlyPlayed).Nodup →
        (positions (recentlyPlayedAfter x st.recentlyPlayed)).Nodup)
    ∧ (recentlyPlayedAfter x st.recentlyPlayed).head? = some (JVal.num x)
    ∧ (positions (recentlyPlayedAfter x st.recentlyPlayed)).count x = 1
  rw [recentlyPlayedAfter_eq_take]
  have hsub : (positions ((st.recentlyPlayed.filter (fun id => strictNe id x)).take 19)).Sublist
      ((positions st.recentlyPlayed).filter (fun y => decide (y ≠ x))) := by
    rw [← positions_filter_strictNe]
    exact positions_sublist (List.take_sublist _ _)
  have hx : x ∉ positions ((st.recentlyPlayed.filter (fun id => strictNe id x)).take 19) := by
    intro hmem
    have := hsub.subset hmem
    simp at this
  have hpos : positions ((JVal.num x :: st.recentlyPlayed.filter (fun id => strictNe id x)).take 20)
      = x :: positions ((st.recentlyPlayed.filter (fun id => strictNe id x)).take 19) := by
    simp [positions, List.take_succ_cons]
  refine ⟨?_, by simp [List.take_succ_cons], ?_⟩
  · intro hn
    rw [hpos]
    exact List.nodup_cons.2 ⟨hx, (hn.filter _).sublist hsub⟩
  · rw [hpos, List.count_cons_self, List.count_eq_zero_of_not_mem hx]

/-- C10 on the ledger `[1, 2, 3]` and `x = 2`: the result `[2, 1, 3]` has no
position twice. -/
theorem ledger_deduplicated_witness :
    (positions [JVal.num 1, JVal.num 2, JVal.num 3]).Nodup
    ∧ (positions (addToRecentlyPlayed (sampleEnv 3) 2
        { startup (sampleEnv 3) emptyStore with
          recentlyPlayed := [JVal.num 1, JVal.num 2, JVal.num 3] }).recentlyPlayed).Nodup :=
  ⟨by decide, (ledger_deduplicated (sampleEnv 3)
      { startup (sampleEnv 3) emptyStore with
        recentlyPlayed := [JVal.num 1, JVal.num 2, JVal.num 3] } 2).1 (by decide)⟩


/-! ## The message handler: lemmas -/

theorem ytMessageHandler_of_parsed {env : Env} {e : MessageEvent} {data : JVal}
    (song : Song) (st : State) (hp : parsedData env e = some data) :
    ytMessageHandler env song e st = onError env song data (onStateChange env song data st) := by
  unfold parsedData at hp
  unfold ytMessageHandler
  cases hd : e.data with
  | other => simp [hd] at hp
  | text s =>
    simp only [hd] at hp ⊢
    by_cases hs : s = ""
    · simp [hs] at hp
    · simp only [hs, if_false] at hp ⊢
      rw [hp]
      cases data <;> rfl

theorem ytMessageHandler_of_not_parsed {env : Env} {e : MessageEvent}
    (song : Song) (st : State) (hp : parsedData env e = none) :
    ytMessageHandler env song e st = st := by
  unfold parsedData at hp
  unfold ytMessageHandler
  cases hd : e.data with
  | other => rfl
  | text s =>
    simp only [hd] at hp ⊢
    by_cases hs : s = ""
    · simp [hs]
    · simp only [hs, if_false] at hp ⊢
      rw [hp]

theorem onStateChange_of_error {env : Env} {data : JVal} (song : Song) (st : State)
    (hev : getProp data "event" = some (.str "onError")) :
    onStateChange env song data st = st := by
  unfold onStateChange
  rw [hev]
  simp

theorem onError_of_ended {env : Env} {data : JVal} (song : Song) (st : State)
    (hev : getProp data "event" = some (.str "onStateChange")) :
    onError env song data st = st := by
  unfold onError
  rw [hev]
  simp

theorem ytMessageHandler_error {env : Env} {e : MessageEvent} (song : Song) (st : State)
    (h : IsError env e) :
    ytMessageHandler env song e st
      = playNext env song 800 (showToast "Video unavailable, skipping..." st) := by
  obtain ⟨data, hp, hev⟩ := h
  rw [ytMessageHandler_of_parsed song st hp, onStateChange_of_error song st hev]
  unfold onError
  rw [hev]
  rfl

theorem ytMessageHandler_ended {env : Env} {e : MessageEvent} (song : Song) (st : State)
    (h : IsEnded env e) :
    ytMessageHandler env song e st
      = if st.autoPlayNext then playNext env song 400 st else st := by
  obtain ⟨data, hp, hev, hinfo⟩ := h
  rw [ytMessageHandler_of_parsed song st hp, onError_of_ended _ _ hev]
  unfold onStateChange
  rw [hev, hinfo]
  rfl

theorem playNext_of_next {env : Env} {song next : Song} (delay : Nat) (st : State)
    (h : nextOf env song = some next) :
    playNext env song delay st
      = { renderSongDetail env next (stopAutoScroll { st with currentSong := some next }) with
          pendingLoads := (renderSongDetail env next
            (stopAutoScroll { st with currentSong := some next })).pendingLoads
              ++ [{ delay := delay, song := next }] } := by
  unfold nextOf at h
  unfold playNext
  rw [h]

theorem playNext_of_last {env : Env} {song : Song} (delay : Nat) (st : State)
    (h : nextOf env song = none) : playNext env song delay st = st := by
  unfold nextOf at h
  unfold playNext
  rw [h]

theorem nextOf_id {env : Env} {song next : Song} (h : nextOf env song = some next) :
    next.id = song.id + 1 ∧ next ∈ env.SONGS := by
  unfold nextOf at h
  have h1 := List.find?_some h
  have h2 := List.mem_of_find?_eq_some h
  exact ⟨by simpa using h1, h2⟩


theorem renderSongDetail_pendingLoads (env : Env) (song : Song) (st : State) :
    (renderSongDetail env song st).pendingLoads = st.pendingLoads
    ∧ (renderSongDetail env song st).currentSong = st.currentSong
    ∧ (renderSongDetail env song st).currentPlayerSongId = st.currentPlayerSongId
    ∧ (renderSongDetail env song st).recentlyPlayed = st.recentlyPlayed
    ∧ (renderSongDetail env song st).sessions = st.sessions
    ∧ (st.ytContainer ≠ none → (renderSongDetail env song st).ytContainer ≠ none) := by
  unfold renderSongDetail
  split <;> simp

/-! ## The message handler: claims -/

/-- C3. An error notification handled for the session of `song` makes the entry
after `song` the current song and schedules the start of exactly that entry,
whatever the auto-advance flag of the state is. -/
theorem error_advances (env : Env) (st : State) (song next : Song) (e : MessageEvent)
    (hErr : IsError env e) (hNext : nextOf env song = some next) :
    (ytMessageHandler env song e st).currentSong = some next
    ∧ (ytMessageHandler env song e st).pendingLoads
        = st.pendingLoads ++ [{ delay := 800, song := next }]
    ∧ next.id = song.id + 1 ∧ next ∈ env.SONGS := by
  rw [ytMessageHandler_error song st hErr, playNext_of_next 800 _ hNext]
  obtain ⟨h1, h2, -⟩ := renderSongDetail_pendingLoads env next
    (stopAutoScroll { showToast "Video unavailable, skipping..." st with currentSong := some next })
  refine ⟨?_, ?_, nextOf_id hNext⟩
  · simpa using h2
  · simp only [h1]
    rfl

/-- C3 on the catalog 1..3 with the flag off: an error at position 1 schedules
position 2. -/
theorem error_advances_witness :
    IsError (sampleEnv 3) { data := .text errorText, source := 0 }
    ∧ nextOf (sampleEnv 3) (sampleSong 1) = some (sampleSong 2)
    ∧ (startup (sampleEnv 3) emptyStore).autoPlayNext = false
    ∧ (ytMessageHandler (sampleEnv 3) (sampleSong 1) { data := .text errorText, source := 0 }
        (startup (sampleEnv 3) emptyStore)).pendingLoads
        = [{ delay := 800, song := sampleSong 2 }] :=
  ⟨⟨_, rfl, rfl⟩, rfl, rfl,
    (error_advances (sampleEnv 3) (startup (sampleEnv 3) emptyStore) (sampleSong 1)
      (sampleSong 2) { data := .text errorText, source := 0 } ⟨_, rfl, rfl⟩ rfl).2.1⟩

/-- C4. With auto-advance off, an ended notification leaves the state as it
was: nothing is scheduled, the current song and the active entry position stay
(so the position stays `p` when it was `p`). -/
theorem ended_autoplay_off_stops (env : Env) (st : State) (song : Song) (e : MessageEvent)
    (hEnd : IsEnded env e) (hOff : st.autoPlayNext = false) :
    ytMessageHandler env song e st = st
    ∧ (ytMessageHandler env song e st).pendingLoads = st.pendingLoads
    ∧ (ytMessageHandler env song e st).currentSong = st.currentSong
    ∧ (ytMessageHandler env song e st).currentPlayerSongId = st.currentPlayerSongId := by
  have h : ytMessageHandler env song e st = st := by
    rw [ytMessageHandler_ended song st hEnd, hOff]
    rfl
  rw [h]
  exact ⟨rfl, rfl, rfl, rfl⟩

/-- C4 on the catalog 1..3 while song 1 plays with the flag off. -/
theorem ended_autoplay_off_stops_witness :
    IsEnded (sampleEnv 3) { data := .text endedText, source := 0 }
    ∧ (playFn (sampleEnv 3) (sampleSong 1)
        (openSong (sampleEnv 3) (sampleSong 1) (startup (sampleEnv 3) emptyStore))).autoPlayNext
        = false
    ∧ (ytMessageHandler (sampleEnv 3) (sampleSong 1) { data := .text endedText, source := 0 }
        (playFn (sampleEnv 3) (sampleSong 1)
          (openSong (sampleEnv 3) (sampleSong 1)
            (startup (sampleEnv 3) emptyStore)))).currentPlayerSongId = some 1 :=
  ⟨⟨_, rfl, rfl, rfl⟩, rfl,
    (ended_autoplay_off_stops (sampleEnv 3) _ (sampleSong 1)
      { data := .text endedText, source := 0 } ⟨_, rfl, rfl, rfl⟩ rfl).2.2.2.trans rfl⟩


theorem loadYoutubeEmbed_of_container (env : Env) (song : Song) (st : State)
    (h : st.ytContainer ≠ none) :
    loadYoutubeEmbed env song st
      = setupYouTubeListener song
          { addToRecentlyPlayed env song.id { st with currentPlayerSongId := some song.id } with
            ytContainer := some (.iframe st.sessions song) } := by
  unfold loadYoutubeEmbed
  cases hc : st.ytContainer with
  | none => exact absurd hc h
  | some c => rfl

theorem loadYoutubeEmbed_fields (env : Env) (song : Song) (st : State)
    (h : st.ytContainer ≠ none) :
    (loadYoutubeEmbed env song st).currentPlayerSongId = some song.id
    ∧ (loadYoutubeEmbed env song st).recentlyPlayed = recentlyPlayedAfter song.id st.recentlyPlayed
    ∧ (loadYoutubeEmbed env song st).ytMessageHandler
        = some { ident := st.sessions, song := song }
    ∧ (loadYoutubeEmbed env song st).ytContainer = some (.iframe st.sessions song)
    ∧ (loadYoutubeEmbed env song st).currentSong = st.currentSong
    ∧ (loadYoutubeEmbed env song st).pendingLoads = st.pendingLoads := by
  rw [loadYoutubeEmbed_of_container env song st h]
  simp [setupYouTubeListener, addToRecentlyPlayed]

theorem recentlyPlayedAfter_head (x : Int) (L : List JVal) :
    (recentlyPlayedAfter x L).head? = some (JVal.num x) := by
  rw [recentlyPlayedAfter_eq_take]
  simp [List.take_succ_cons]

theorem fireTimer_fields (env : Env) (t : Timer) (st : State) (h : st.ytContainer ≠ none) :
    (fireTimer env t st).currentPlayerSongId = some t.song.id
    ∧ (fireTimer env t st).recentlyPlayed.head? = some (JVal.num t.song.id)
    ∧ (fireTimer env t st).ytMessageHandler = some { ident := st.sessions, song := t.song }
    ∧ (fireTimer env t st).ytContainer = some (.iframe st.sessions t.song)
    ∧ (fireTimer env t st).currentSong = st.currentSong := by
  unfold fireTimer
  obtain ⟨f1, f2, f3, f4, f5, -⟩ := loadYoutubeEmbed_fields env t.song
    { st with pendingLoads := st.pendingLoads.erase t } h
  exact ⟨f1, by rw [f2]; exact recentlyPlayedAfter_head _ _, f3, f4, f5⟩

theorem playNext_fields {env : Env} {song next : Song} (delay : Nat) (st : State)
    (hNext : nextOf env song = some next) :
    (playNext env song delay st).currentSong = some next
    ∧ (playNext env song delay st).pendingLoads
        = st.pendingLoads ++ [{ delay := delay, song := next }]
    ∧ (playNext env song delay st).sessions = st.sessions
    ∧ (st.ytContainer ≠ none → (playNext env song delay st).ytContainer ≠ none) := by
  rw [playNext_of_next delay st hNext]
  obtain ⟨h1, h2, -, -, h5, h6⟩ := renderSongDetail_pendingLoads env next
    (stopAutoScroll { st with currentSong := some next })
  refine ⟨by simpa using h2, by simp only [h1]; rfl, by simp only [h5]; rfl, ?_⟩
  intro hc
  exact h6 hc

/-- C5. With auto-advance on, an ended notification handled for the session of
`song` makes the entry after `song` the current song and schedules its start
after 400 ms; when that timer fires, the entry is the active one, heads the
ledger and has the player and the listener. The entry is the one at `p + 1`. -/
theorem ended_autoplay_on_advances (env : Env) (st : State) (song next : Song)
    (e : MessageEvent) (hEnd : IsEnded env e) (hOn : st.autoPlayNext = true)
    (hNext : nextOf env song = some next) (hFrame : st.ytContainer ≠ none) :
    (ytMessageHandler env song e st).currentSong = some next
    ∧ (ytMessageHandler env song e st).pendingLoads
        = st.pendingLoads ++ [{ delay := 400, song := next }]
    ∧ next.id = song.id + 1 ∧ next ∈ env.SONGS
    ∧ (fireTimer env (Timer.mk 400 next)
        (ytMessageHandler env song e st)).currentPlayerSongId = some next.id
    ∧ (fireTimer env (Timer.mk 400 next)
        (ytMessageHandler env song e st)).recentlyPlayed.head? = some (JVal.num next.id)
    ∧ (fireTimer env (Timer.mk 400 next)
        (ytMessageHandler env song e st)).ytMessageHandler
        = some { ident := st.sessions, song := next }
    ∧ (fireTimer env (Timer.mk 400 next)
        (ytMessageHandler env song e st)).ytContainer = some (.iframe st.sessions next)
    ∧ (fireTimer env (Timer.mk 400 next)
        (ytMessageHandler env song e st)).currentSong = some next := by
  have hh : ytMessageHandler env song e st = playNext env song 400 st := by
    rw [ytMessageHandler_ended song st hEnd, hOn]
    rfl
  rw [hh]
  obtain ⟨p1, p2, p3, p4⟩ := playNext_fields 400 st hNext
  obtain ⟨hn1, hn2⟩ := nextOf_id hNext
  obtain ⟨f1, f2, f3, f4, f5⟩ := fireTimer_fields env (Timer.mk 400 next)
    (playNext env song 400 st) (p4 hFrame)
  rw [p3] at f3 f4
  exact ⟨p1, p2, hn1, hn2, f1, f2, f3, f4, f5.trans p1⟩

/-- C5 on the catalog 1..3 with the flag on while song 1 plays: position 2
is scheduled and, once started, heads the ledger `[2, 1]`. -/
theorem ended_autoplay_on_advances_witness :
    IsEnded (sampleEnv 3) { data := .text endedText, source := 0 }
    ∧ (fireTimer (sampleEnv 3) (Timer.mk 400 (sampleSong 2))
        (ytMessageHandler (sampleEnv 3) (sampleSong 1) { data := .text endedText, source := 0 }
          (toggleAutoPlay (playFn (sampleEnv 3) (sampleSong 1)
            (openSong (sampleEnv 3) (sampleSong 1)
              (startup (sampleEnv 3) emptyStore)))))).currentPlayerSongId = some 2 :=
  ⟨⟨_, rfl, rfl, rfl⟩,
    (ended_autoplay_on_advances (sampleEnv 3)
      (toggleAutoPlay (playFn (sampleEnv 3) (sampleSong 1)
        (openSong (sampleEnv 3) (sampleSong 1) (startup (sampleEnv 3) emptyStore))))
      (sampleSong 1) (sampleSong 2) { data := .text endedText, source := 0 }
      ⟨_, rfl, rfl, rfl⟩ rfl rfl (by decide)).2.2.2.2.1⟩


/-- C6, as stated, fails: on the one-song catalog, an error notification while
song 1 (the last position) plays leaves the active entry position at 1; it is
not cleared. -/
theorem last_position_not_cleared :
    nextOf (sampleEnv 1) (sampleSong 1) = none
    ∧ IsError (sampleEnv 1) { data := .text errorText, source := 0 }
    ∧ ¬ ((dispatchMessage (sampleEnv 1) { data := .text errorText, source := 0 }
          (playFn (sampleEnv 1) (sampleSong 1)
            (openSong (sampleEnv 1) (sampleSong 1)
              (startup (sampleEnv 1) emptyStore)))).currentPlayerSongId = none) :=
  ⟨rfl, ⟨_, rfl, rfl⟩, by decide⟩

/-- C6, amended. An ended or error notification handled at the last position
schedules nothing and leaves the current song, the active entry position, the
player, the listener and the ledger as they were: there is no wraparound and no
retry, and the active entry position is kept, not cleared. -/
theorem last_position_stops (env : Env) (st : State) (song : Song) (e : MessageEvent)
    (hNote : IsEnded env e ∨ IsError env e) (hLast : nextOf env song = none) :
    (ytMessageHandler env song e st).pendingLoads = st.pendingLoads
    ∧ (ytMessageHandler env song e st).currentSong = st.currentSong
    ∧ (ytMessageHandler env song e st).currentPlayerSongId = st.currentPlayerSongId
    ∧ (ytMessageHandler env song e st).ytContainer = st.ytContainer
    ∧ (ytMessageHandler env song e st).ytMessageHandler = st.ytMessageHandler
    ∧ (ytMessageHandler env song e st).recentlyPlayed = st.recentlyPlayed := by
  rcases hNote with h | h
  · rw [ytMessageHandler_ended song st h, playNext_of_last 400 st hLast]
    simp
  · rw [ytMessageHandler_error song st h, playNext_of_last 800 _ hLast]
    simp [showToast]

/-- C6 on the one-song catalog: the error at position 1 schedules nothing. -/
theorem last_position_stops_witness :
    (IsEnded (sampleEnv 1) { data := .text errorText, source := 0 }
      ∨ IsError (sampleEnv 1) { data := .text errorText, source := 0 })
    ∧ nextOf (sampleEnv 1) (sampleSong 1) = none
    ∧ (ytMessageHandler (sampleEnv 1) (sampleSong 1) { data := .text errorText, source := 0 }
        (playFn (sampleEnv 1) (sampleSong 1)
          (openSong (sampleEnv 1) (sampleSong 1)
            (startup (sampleEnv 1) emptyStore)))).pendingLoads = [] :=
  ⟨Or.inr ⟨_, rfl, rfl⟩, rfl,
    (last_position_stops (sampleEnv 1) _ (sampleSong 1)
      { data := .text errorText, source := 0 } (Or.inr ⟨_, rfl, rfl⟩) rfl).1.trans rfl⟩


/-! ## Listeners -/

theorem renderSongDetail_listeners (env : Env) (song : Song) (st : State) :
    (renderSongDetail env song st).messageListeners = st.messageListeners
    ∧ (renderSongDetail env song st).ytMessageHandler = st.ytMessageHandler
    ∧ (renderSongDetail env song st).sessions = st.sessions := by
  unfold renderSongDetail
  split <;> simp

theorem playNext_listeners (env : Env) (song : Song) (delay : Nat) (st : State) :
    (playNext env song delay st).messageListeners = st.messageListeners
    ∧ (playNext env song delay st).ytMessageHandler = st.ytMessageHandler
    ∧ (playNext env song delay st).sessions = st.sessions := by
  unfold playNext
  split
  · simp
  · rename_i next _
    obtain ⟨h1, h2, h3⟩ := renderSongDetail_listeners env next
      (stopAutoScroll { st with currentSong := some next })
    exact ⟨h1, h2, h3⟩

theorem ytMessageHandler_listeners (env : Env) (song : Song) (e : MessageEvent) (st : State) :
    (ytMessageHandler env song e st).messageListeners = st.messageListeners
    ∧ (ytMessageHandler env song e st).ytMessageHandler = st.ytMessageHandler
    ∧ (ytMessageHandler env song e st).sessions = st.sessions := by
  cases hp : parsedData env e with
  | none => rw [ytMessageHandler_of_not_parsed song st hp]; simp
  | some data =>
    rw [ytMessageHandler_of_parsed song st hp]
    have h1 : (onStateChange env song data st).messageListeners = st.messageListeners
        ∧ (onStateChange env song data st).ytMessageHandler = st.ytMessageHandler
        ∧ (onStateChange env song data st).sessions = st.sessions := by
      unfold onStateChange
      split
      · split
        · split
          · exact playNext_listeners env song 400 st
          · simp
        · simp
      · simp
    have h2 : ∀ s : State, (onError env song data s).messageListeners = s.messageListeners
        ∧ (onError env song data s).ytMessageHandler = s.ytMessageHandler
        ∧ (onError env song data s).sessions = s.sessions := by
      intro s
      unfold onError
      split
      · exact playNext_listeners env song 800 (showToast "Video unavailable, skipping..." s)
      · simp
    obtain ⟨a1, a2, a3⟩ := h2 (onStateChange env song data st)
    exact ⟨a1.trans h1.1, a2.trans h1.2.1, a3.trans h1.2.2⟩

theorem foldl_handlers_listeners (env : Env) (e : MessageEvent) (l : List Handler) (st : State) :
    (l.foldl (fun acc h => ytMessageHandler env h.song e acc) st).messageListeners
        = st.messageListeners
    ∧ (l.foldl (fun acc h => ytMessageHandler env h.song e acc) st).ytMessageHandler
        = st.ytMessageHandler
    ∧ (l.foldl (fun acc h => ytMessageHandler env h.song e acc) st).sessions = st.sessions := by
  induction l generalizing st with
  | nil => simp
  | cons h t ih =>
    obtain ⟨a1, a2, a3⟩ := ih (ytMessageHandler env h.song e st)
    obtain ⟨b1, b2, b3⟩ := ytMessageHandler_listeners env h.song e st
    exact ⟨a1.trans b1, a2.trans b2, a3.trans b3⟩

theorem listenerInv_of_same {st st' : State} (h : ListenerInv st)
    (h1 : st'.messageListeners = st.messageListeners)
    (h2 : st'.ytMessageHandler = st.ytMessageHandler) (h3 : st'.sessions = st.sessions) :
    ListenerInv st' := by
  unfold ListenerInv at h ⊢
  rw [h1, h2, h3]
  exact h

theorem setupYouTubeListener_listeners (song : Song) (st : State) (h : ListenerInv st) :
    (setupYouTubeListener song st).messageListeners = [{ ident := st.sessions, song := song }]
    ∧ (setupYouTubeListener song st).ytMessageHandler
        = some { ident := st.sessions, song := song }
    ∧ (setupYouTubeListener song st).sessions = st.sessions + 1 := by
  obtain ⟨h1, -⟩ := h
  unfold setupYouTubeListener
  cases hh : st.ytMessageHandler with
  | none => simp [h1, hh]
  | some old => simp [h1, hh]

theorem loadYoutubeEmbed_inv (env : Env) (song : Song) (st : State) (h : ListenerInv st) :
    ListenerInv (loadYoutubeEmbed env song st) := by
  by_cases hc : st.ytContainer = none
  · unfold loadYoutubeEmbed
    rw [hc]
    exact h
  · rw [loadYoutubeEmbed_of_container env song st hc]
    have hi : ListenerInv
        { addToRecentlyPlayed env song.id { st with currentPlayerSongId := some song.id } with
          ytContainer := some (.iframe st.sessions song) } :=
      listenerInv_of_same h rfl rfl rfl
    obtain ⟨a1, a2, a3⟩ := setupYouTubeListener_listeners song _ hi
    unfold ListenerInv
    rw [a1, a2, a3]
    refine ⟨rfl, ?_⟩
    intro x hx
    simp at hx
    subst hx
    show st.sessions < st.sessions + 1
    omega

theorem step_inv (env : Env) (a : Action) (st : State) (h : ListenerInv st) :
    ListenerInv (step env a st) := by
  cases a with
  | openSong song =>
    obtain ⟨a1, a2, a3⟩ := renderSongDetail_listeners env song { st with currentSong := some song }
    exact listenerInv_of_same h a1 a2 a3
  | play =>
    show ListenerInv (match st.detailSong with
      | some song => playFn env song st
      | none => st)
    cases st.detailSong with
    | none => exact h
    | some song => exact listenerInv_of_same (loadYoutubeEmbed_inv env song st h) rfl rfl rfl
  | switchSong newSong =>
    obtain ⟨a1, a2, a3⟩ := renderSongDetail_listeners env newSong
      { clearYtContainer (stopAutoScroll { st with currentSong := some newSong }) with
        currentPlayerSongId := none }
    exact listenerInv_of_same h a1 a2 a3
  | goBack => exact listenerInv_of_same h rfl rfl rfl
  | navigate page => exact listenerInv_of_same h rfl rfl rfl
  | toggleAutoPlay => exact listenerInv_of_same h rfl rfl rfl
  | shuffle song =>
    obtain ⟨a1, a2, a3⟩ := renderSongDetail_listeners env song { st with currentSong := some song }
    exact listenerInv_of_same h a1 a2 a3
  | message e =>
    obtain ⟨a1, a2, a3⟩ := foldl_handlers_listeners env e st.messageListeners st
    exact listenerInv_of_same h a1 a2 a3
  | timer t =>
    show ListenerInv (if t ∈ st.pendingLoads then fireTimer env t st else st)
    split
    · exact loadYoutubeEmbed_inv env t.song _ (listenerInv_of_same h rfl rfl rfl)
    · exact h

theorem run_inv (env : Env) (actions : List Action) (st : State) (h : ListenerInv st) :
    ListenerInv (run env actions st) := by
  induction actions generalizing st with
  | nil => exact h
  | cons a t ih => exact ih _ (step_inv env a st h)

theorem reachable_inv {env : Env} {st : State} (h : Reachable env st) : ListenerInv st := by
  obtain ⟨store, actions, rfl⟩ := h
  apply run_inv
  exact ⟨rfl, by intro x hx; cases hx⟩


/-! ## Sessions: claims -/

/-- C1, as stated, fails. On the catalog 1..3: song 1 is started (player 0),
the user switches to song 2 and starts it (player 1, the new session); an error
notification posted by player 0 and delivered now is not discarded: the current
song moves from 2 to 3 and a start of song 3 is scheduled. -/
theorem stale_notification_not_discarded :
    (run (sampleEnv 3) [.openSong (sampleSong 1), .play]
        (startup (sampleEnv 3) emptyStore)).ytContainer = some (.iframe 0 (sampleSong 1))
    ∧ (run (sampleEnv 3) [.openSong (sampleSong 1), .play, .switchSong (sampleSong 2), .play]
        (startup (sampleEnv 3) emptyStore)).ytContainer = some (.iframe 1 (sampleSong 2))
    ∧ (MessageEvent.mk (.text errorText) 0).source = 0
    ∧ (run (sampleEnv 3) [.openSong (sampleSong 1), .play, .switchSong (sampleSong 2), .play]
        (startup (sampleEnv 3) emptyStore)).currentSong = some (sampleSong 2)
    ∧ (dispatchMessage (sampleEnv 3) (MessageEvent.mk (.text errorText) 0)
        (run (sampleEnv 3) [.openSong (sampleSong 1), .play, .switchSong (sampleSong 2), .play]
          (startup (sampleEnv 3) emptyStore))).currentSong = some (sampleSong 3)
    ∧ (dispatchMessage (sampleEnv 3) (MessageEvent.mk (.text errorText) 0)
        (run (sampleEnv 3) [.openSong (sampleSong 1), .play, .switchSong (sampleSong 2), .play]
          (startup (sampleEnv 3) emptyStore))).pendingLoads = [Timer.mk 800 (sampleSong 3)]
    ∧ ¬ ((dispatchMessage (sampleEnv 3) (MessageEvent.mk (.text errorText) 0)
        (run (sampleEnv 3) [.openSong (sampleSong 1), .play, .switchSong (sampleSong 2), .play]
          (startup (sampleEnv 3) emptyStore))).currentSong
        = (run (sampleEnv 3)
            [.openSong (sampleSong 1), .play, .switchSong (sampleSong 2), .play]
            (startup (sampleEnv 3) emptyStore)).currentSong) := by
  refine ⟨rfl, rfl, rfl, rfl, rfl, rfl, ?_⟩
  decide

/-- C1, amended. When `loadYoutubeEmbed` begins a new session in a reachable
state, the listeners of all earlier sessions are off the window and the new
session's listener is the only one registered; a notification delivered
afterwards is handled by that listener alone, for the new session's song. -/
theorem new_session_replaces_listener (env : Env) (st : State) (song : Song)
    (e : MessageEvent) (hR : Reachable env st) (hC : st.ytContainer ≠ none) :
    (loadYoutubeEmbed env song st).messageListeners = [{ ident := st.sessions, song := song }]
    ∧ (∀ h ∈ st.messageListeners, h ∉ (loadYoutubeEmbed env song st).messageListeners)
    ∧ dispatchMessage env e (loadYoutubeEmbed env song st)
        = ytMessageHandler env song e (loadYoutubeEmbed env song st) := by
  have hInv := reachable_inv hR
  have hL : (loadYoutubeEmbed env song st).messageListeners
      = [{ ident := st.sessions, song := song }] := by
    rw [loadYoutubeEmbed_of_container env song st hC]
    exact (setupYouTubeListener_listeners song _ (listenerInv_of_same hInv rfl rfl rfl)).1
  refine ⟨hL, ?_, ?_⟩
  · intro h hmem hnew
    rw [hL] at hnew
    simp at hnew
    have := hInv.2 h hmem
    rw [hnew] at this
    exact Nat.lt_irrefl _ this
  · unfold dispatchMessage
    rw [hL]
    rfl

/-- C1 amended, on the run of the counterexample: when song 2 is started after
song 1, the only listener left is the one of song 2. -/
theorem new_session_replaces_listener_witness :
    Reachable (sampleEnv 3)
      (run (sampleEnv 3) [.openSong (sampleSong 1), .play, .switchSong (sampleSong 2)]
        (startup (sampleEnv 3) emptyStore))
    ∧ (run (sampleEnv 3) [.openSong (sampleSong 1), .play, .switchSong (sampleSong 2)]
        (startup (sampleEnv 3) emptyStore)).ytContainer ≠ none
    ∧ (loadYoutubeEmbed (sampleEnv 3) (sampleSong 2)
        (run (sampleEnv 3) [.openSong (sampleSong 1), .play, .switchSong (sampleSong 2)]
          (startup (sampleEnv 3) emptyStore))).messageListeners
        = [{ ident := 1, song := sampleSong 2 }] :=
  ⟨⟨emptyStore, _, rfl⟩, by decide,
    (new_session_replaces_listener (sampleEnv 3) _ (sampleSong 2)
      (MessageEvent.mk (.text errorText) 0) ⟨emptyStore, _, rfl⟩ (by decide)).1⟩

/-- C2: the code at the failing inputs. After `goBack` (and after `switchSong`)
the active entry is cleared, but the listener of the stopped session is still
registered. With the flag on, an ended notification delivered after `goBack`
makes song 2 the current song and schedules its start; when the timer fires,
song 2 plays while the page shown is `home`. After a switch from song 1 to
song 3, an error notification makes song 2 the current song. -/
theorem notification_after_stop_advances :
    (run (sampleEnv 3) [.openSong (sampleSong 1), .toggleAutoPlay, .play, .goBack]
        (startup (sampleEnv 3) emptyStore)).currentPlayerSongId = none
    ∧ (run (sampleEnv 3) [.openSong (sampleSong 1), .toggleAutoPlay, .play, .goBack]
        (startup (sampleEnv 3) emptyStore)).messageListeners
        = [{ ident := 0, song := sampleSong 1 }]
    ∧ (run (sampleEnv 3) [.openSong (sampleSong 1), .toggleAutoPlay, .play, .goBack,
          .message (MessageEvent.mk (.text endedText) 0)]
        (startup (sampleEnv 3) emptyStore)).currentSong = some (sampleSong 2)
    ∧ (run (sampleEnv 3) [.openSong (sampleSong 1), .toggleAutoPlay, .play, .goBack,
          .message (MessageEvent.mk (.text endedText) 0)]
        (startup (sampleEnv 3) emptyStore)).pendingLoads = [Timer.mk 400 (sampleSong 2)]
    ∧ (run (sampleEnv 3) [.openSong (sampleSong 1), .toggleAutoPlay, .play, .goBack,
          .message (MessageEvent.mk (.text endedText) 0), .timer (Timer.mk 400 (sampleSong 2))]
        (startup (sampleEnv 3) emptyStore)).currentPlayerSongId = some 2
    ∧ (run (sampleEnv 3) [.openSong (sampleSong 1), .toggleAutoPlay, .play, .goBack,
          .message (MessageEvent.mk (.text endedText) 0), .timer (Timer.mk 400 (sampleSong 2))]
        (startup (sampleEnv 3) emptyStore)).currentPage = "home"
    ∧ (run (sampleEnv 3) [.openSong (sampleSong 1), .play, .switchSong (sampleSong 3)]
        (startup (sampleEnv 3) emptyStore)).currentPlayerSongId = none
    ∧ (run (sampleEnv 3) [.openSong (sampleSong 1), .play, .switchSong (sampleSong 3)]
        (startup (sampleEnv 3) emptyStore)).currentSong = some (sampleSong 3)
    ∧ (run (sampleEnv 3) [.openSong (sampleSong 1), .play, .switchSong (sampleSong 3),
          .message (MessageEvent.mk (.text errorText) 0)]
        (startup (sampleEnv 3) emptyStore)).currentSong = some (sampleSong 2)
    ∧ (run (sampleEnv 3) [.openSong (sampleSong 1), .play, .switchSong (sampleSong 3),
          .message (MessageEvent.mk (.text errorText) 0)]
        (startup (sampleEnv 3) emptyStore)).pendingLoads = [Timer.mk 800 (sampleSong 2)] :=
  ⟨rfl, rfl, rfl, rfl, rfl, rfl, rfl, rfl, rfl, rfl⟩


/-! ## Malformed messages and persisted reads -/

theorem onStateChange_of_not_ended {env : Env} {data : JVal} (song : Song) (st : State)
    (h : ¬ (getProp data "event" = some (.str "onStateChange")
      ∧ getProp data "info" = some (.num 0))) :
    onStateChange env song data st = st := by
  unfold onStateChange
  split
  · rename_i hev
    split
    · rename_i hinfo
      exact absurd ⟨hev, hinfo⟩ h
    · rfl
  · rfl

theorem onError_of_not_error {env : Env} {data : JVal} (song : Song) (st : State)
    (h : ¬ getProp data "event" = some (.str "onError")) :
    onError env song data st = st := by
  unfold onError
  split
  · rename_i hev
    exact absurd hev h
  · rfl

theorem ytMessageHandler_of_malformed {env : Env} {e : MessageEvent} (song : Song) (st : State)
    (hE : ¬ IsEnded env e) (hR : ¬ IsError env e) : ytMessageHandler env song e st = st := by
  cases hp : parsedData env e with
  | none => exact ytMessageHandler_of_not_parsed song st hp
  | some data =>
    rw [ytMessageHandler_of_parsed song st hp]
    rw [onStateChange_of_not_ended song st (fun h => hE ⟨data, hp, h.1, h.2⟩)]
    exact onError_of_not_error song st (fun h => hR ⟨data, hp, h⟩)

/-- C11. A message that is neither an ended nor an error notification (its
data is absent or not a string, is the empty string, does not parse, or parses
to a value without `event` `"onStateChange"` and `info` 0 and without `event`
`"onError"`) leaves the state as it was, for the handler of any session and for
the window with any listeners registered; nothing is scheduled. -/
theorem malformed_message_ignored (env : Env) (st : State) (song : Song) (e : MessageEvent)
    (hE : ¬ IsEnded env e) (hR : ¬ IsError env e) :
    ytMessageHandler env song e st = st
    ∧ dispatchMessage env e st = st
    ∧ (dispatchMessage env e st).pendingLoads = st.pendingLoads := by
  have hd : dispatchMessage env e st = st := by
    unfold dispatchMessage
    generalize st.messageListeners = l
    induction l with
    | nil => rfl
    | cons h t ih =>
      rw [List.foldl_cons, ytMessageHandler_of_malformed h.song st hE hR]
      exact ih
  exact ⟨ytMessageHandler_of_malformed song st hE hR, hd, by rw [hd]⟩


/-- C11 on the sample page, for the handler of song 1: a message whose data is
not a string, the text `null`, and a state change with `info` 1 all leave the
state as it was. -/
theorem malformed_message_ignored_witness :
    ytMessageHandler (sampleEnvMore 3) (sampleSong 1) (MessageEvent.mk .other 0)
        (startup (sampleEnvMore 3) emptyStore) = startup (sampleEnvMore 3) emptyStore
    ∧ ytMessageHandler (sampleEnvMore 3) (sampleSong 1) (MessageEvent.mk (.text "null") 0)
        (startup (sampleEnvMore 3) emptyStore) = startup (sampleEnvMore 3) emptyStore
    ∧ ytMessageHandler (sampleEnvMore 3) (sampleSong 1)
        (MessageEvent.mk (.text "\x7b\"event\":\"onStateChange\",\"info\":1\x7d") 0)
        (startup (sampleEnvMore 3) emptyStore) = startup (sampleEnvMore 3) emptyStore :=
  ⟨(malformed_message_ignored (sampleEnvMore 3) _ (sampleSong 1) (MessageEvent.mk .other 0)
      (by rintro ⟨data, hp, -⟩; cases hp) (by rintro ⟨data, hp, -⟩; cases hp)).1,
    (malformed_message_ignored (sampleEnvMore 3) _ (sampleSong 1)
      (MessageEvent.mk (.text "null") 0)
      (by rintro ⟨data, hp, hev, -⟩
          have h : some JVal.null = some data := hp
          cases h
          cases hev)
      (by rintro ⟨data, hp, hev⟩
          have h : some JVal.null = some data := hp
          cases h
          cases hev)).1,
    (malformed_message_ignored (sampleEnvMore 3) _ (sampleSong 1)
      (MessageEvent.mk (.text "\x7b\"event\":\"onStateChange\",\"info\":1\x7d") 0)
      (by rintro ⟨data, hp, -, hinfo⟩
          have h : some (JVal.obj [("event", .str "onStateChange"), ("info", .num 1)])
              = some data := hp
          cases h
          have h1 : some (JVal.num 1) = some (JVal.num 0) := hinfo
          injection h1 with h2
          injection h2 with h3
          exact absurd h3 (by decide))
      (by rintro ⟨data, hp, hev⟩
          have h : some (JVal.obj [("event", .str "onStateChange"), ("info", .num 1)])
              = some data := hp
          cases h
          have h1 : some (JVal.str "onStateChange") = some (JVal.str "onError") := hev
          injection h1 with h2
          injection h2 with h3
          exact absurd h3 (by decide))).1⟩

/-- C20. `safeJsonParse(key, fallback)` returns the fallback when the key is
missing, when the stored text is empty, when the text does not parse, and, for
an array fallback, when the parsed value is not an array; otherwise it returns
the parsed value.  It is a total function: the throwing `JSON.parse` is the
`none` of the parser. -/
theorem safeJsonParse_tolerant (env : Env) (store : String → Option String) (key : String)
    (fallback : JVal) :
    (store key = none → safeJsonParse env store key fallback = fallback)
    ∧ (store key = some "" → safeJsonParse env store key fallback = fallback)
    ∧ (∀ raw, store key = some raw → env.jsonParse raw = none →
        safeJsonParse env store key fallback = fallback)
    ∧ (∀ raw parsed, store key = some raw → raw ≠ "" → env.jsonParse raw = some parsed →
        isArray fallback = true → isArray parsed = false →
        safeJsonParse env store key fallback = fallback)
    ∧ (∀ raw parsed, store key = some raw → raw ≠ "" → env.jsonParse raw = some parsed →
        (isArray fallback = false ∨ isArray parsed = true) →
        safeJsonParse env store key fallback = parsed) := by
  refine ⟨?_, ?_, ?_, ?_, ?_⟩
  · intro h
    simp [safeJsonParse, h]
  · intro h
    simp [safeJsonParse, h]
  · intro raw h hp
    simp only [safeJsonParse, h, hp]
    split <;> rfl
  · intro raw parsed h hne hp hf hpa
    simp [safeJsonParse, h, hne, hp, hf, hpa]
  · intro raw parsed h hne hp hor
    rcases hor with hf | hpa
    · simp [safeJsonParse, h, hne, hp, hf]
    · simp [safeJsonParse, h, hne, hp, hpa]

/-- C20 on the sample page: with nothing stored the recently-played read gives
the empty array, and the stored 21-entry array is returned as parsed. -/
theorem safeJsonParse_tolerant_witness :
    emptyStore "bhimgeet_recent" = none
    ∧ arrayItems (safeJsonParse (sampleEnv 3) emptyStore "bhimgeet_recent" (.arr [])) = []
    ∧ longLedgerStore "bhimgeet_recent" = some longLedgerText
    ∧ (arrayItems (safeJsonParse (sampleEnv 3) longLedgerStore "bhimgeet_recent"
        (.arr []))).length = 21 :=
  ⟨rfl,
    congrArg arrayItems
      ((safeJsonParse_tolerant (sampleEnv 3) emptyStore "bhimgeet_recent" (.arr [])).1 rfl),
    rfl,
    (congrArg (fun v => (arrayItems v).length)
      ((safeJsonParse_tolerant (sampleEnv 3) longLedgerStore "bhimgeet_recent"
        (.arr [])).2.2.2.2 longLedgerText _ rfl (by decide) rfl (Or.inr rfl))).trans rfl⟩


/-! ## The cache storage: lemmas -/

theorem cacheMatch_cachePut_same (c : Cache) (url : String) (r : Response) :
    cacheMatch (cachePut c url r) url = some r := by
  unfold cacheMatch cachePut
  induction c with
  | nil => simp [List.lookup]
  | cons e t ih =>
    obtain ⟨k, v⟩ := e
    by_cases h : k = url
    · simpa [List.filter_cons, h] using ih
    · have h2 : (url == k) = false := by simpa using (fun h3 : url = k => h h3.symm)
      simpa [List.filter_cons, h, List.lookup, h2] using ih

theorem cacheMatch_cachePut_other (c : Cache) (url key : String) (r : Response)
    (hne : key ≠ url) : cacheMatch (cachePut c url r) key = cacheMatch c key := by
  unfold cacheMatch cachePut
  induction c with
  | nil =>
    have h2 : (key == url) = false := by simpa using hne
    simp [List.lookup, h2]
  | cons e t ih =>
    obtain ⟨k, v⟩ := e
    by_cases h : k = url
    · have h2 : (key == url) = false := by simpa using hne
      simpa [List.filter_cons, h, List.lookup, h2] using ih
    · by_cases h3 : key = k
      · simp [List.filter_cons, h, List.lookup, h3]
      · have h4 : (key == k) = false := by simpa using h3
        simpa [List.filter_cons, h, List.lookup, h4] using ih

theorem foldl_cachesDelete (names : List String) (cs : CacheStorage) :
    names.foldl cachesDelete cs = cs.filter (fun p => decide (p.1 ∉ names)) := by
  induction names generalizing cs with
  | nil => simp
  | cons n t ih =>
    rw [List.foldl_cons, ih]
    unfold cachesDelete
    rw [List.filter_filter]
    apply List.filter_congr
    intro p _
    by_cases h : p.1 = n <;> simp [h]

theorem onActivate_eq_filter (cs : CacheStorage) :
    onActivate cs = cs.filter (fun p => decide (p.1 = CACHE_NAME)) := by
  unfold onActivate
  rw [foldl_cachesDelete]
  apply List.filter_congr
  intro p hp
  have hk : p.1 ∈ cachesKeys cs := List.mem_map.2 ⟨p, hp, rfl⟩
  by_cases h : p.1 = CACHE_NAME
  · simp [h]
  · simp [h, hk]

theorem filter_current_single (cs : CacheStorage) (hN : (cachesKeys cs).Nodup)
    (hC : CACHE_NAME ∈ cachesKeys cs) :
    ∃ c, cs.filter (fun p => decide (p.1 = CACHE_NAME)) = [(CACHE_NAME, c)]
      ∧ cacheNamed cs CACHE_NAME = some c := by
  induction cs with
  | nil => simp [cachesKeys] at hC
  | cons e t ih =>
    obtain ⟨k, v⟩ := e
    have hN2 : k ∉ cachesKeys t ∧ (cachesKeys t).Nodup := by
      simpa [cachesKeys] using hN
    by_cases h : k = CACHE_NAME
    · subst h
      refine ⟨v, ?_, by simp [cacheNamed, List.lookup]⟩
      have : t.filter (fun p => decide (p.1 = CACHE_NAME)) = [] := by
        apply List.filter_eq_nil_iff.2
        intro p hp
        have hk : p.1 ∈ cachesKeys t := List.mem_map.2 ⟨p, hp, rfl⟩
        simp
        intro h2
        exact hN2.1 (h2 ▸ hk)
      simp [List.filter_cons, this]
    · have hC2 : CACHE_NAME ∈ cachesKeys t := by
        have : CACHE_NAME = k ∨ CACHE_NAME ∈ cachesKeys t := by simpa [cachesKeys] using hC
        rcases this with h3 | h3
        · exact absurd h3.symm h
        · exact h3
      obtain ⟨c, hc1, hc2⟩ := ih hN2.2 hC2
      refine ⟨c, ?_, ?_⟩
      · simpa [List.filter_cons, h] using hc1
      · have h4 : (CACHE_NAME == k) = false := by simpa using (fun h5 : CACHE_NAME = k => h h5.symm)
        simpa [cacheNamed, List.lookup, h4] using hc2


theorem cachesOpen_of_mem {cs : CacheStorage} {name : String} (h : name ∈ cachesKeys cs) :
    cachesOpen cs name = cs := by
  simp [cachesOpen, h]

theorem cachesOpen_keys (cs : CacheStorage) (name : String) :
    name ∈ cachesKeys (cachesOpen cs name)
    ∧ ((cachesKeys cs).Nodup → (cachesKeys (cachesOpen cs name)).Nodup) := by
  unfold cachesOpen
  by_cases h : name ∈ cachesKeys cs
  · simp [h]
  · simp only [h, if_false]
    refine ⟨by simp [cachesKeys], ?_⟩
    intro hN
    have : cachesKeys (cs ++ [(name, [])]) = cachesKeys cs ++ [name] := by simp [cachesKeys]
    rw [this]
    exact List.nodup_append.2 ⟨hN, List.nodup_singleton _, by
      intro a ha hb
      simp at hb
      exact h (hb ▸ ha)⟩

theorem cachesPut_keys (cs : CacheStorage) (name url : String) (r : Response) :
    cachesKeys (cachesPut cs name url r) = cachesKeys (cachesOpen cs name) := by
  unfold cachesPut cachesKeys
  rw [List.map_map]
  apply List.map_congr_left
  intro p _
  by_cases h : p.1 = name <;> simp [h]

theorem cacheNamed_map_put (l : CacheStorage) (name url : String) (r : Response) :
    cacheNamed (l.map (fun p => if p.1 = name then (p.1, cachePut p.2 url r) else p)) name
      = (cacheNamed l name).map (fun c => cachePut c url r) := by
  unfold cacheNamed
  induction l with
  | nil => rfl
  | cons e t ih =>
    obtain ⟨k, v⟩ := e
    rw [List.map_cons]
    by_cases h : k = name
    · have hf : (if (k, v).1 = name then ((k, v).1, cachePut (k, v).2 url r) else (k, v))
          = (k, cachePut v url r) := if_pos h
      rw [hf]
      simp [List.lookup, h]
    · have hf : (if (k, v).1 = name then ((k, v).1, cachePut (k, v).2 url r) else (k, v))
          = (k, v) := if_neg h
      have h2 : (name == k) = false := by simpa using (fun h3 : name = k => h h3.symm)
      rw [hf]
      simpa [List.lookup, h2] using ih

theorem cacheNamed_isSome_of_mem {cs : CacheStorage} {name : String}
    (h : name ∈ cachesKeys cs) : ∃ c, cacheNamed cs name = some c := by
  unfold cacheNamed
  induction cs with
  | nil => simp [cachesKeys] at h
  | cons e t ih =>
    obtain ⟨k, v⟩ := e
    by_cases h1 : name = k
    · exact ⟨v, by simp [List.lookup, h1]⟩
    · have h2 : (name == k) = false := by simpa using h1
      have h3 : name ∈ cachesKeys t := by
        have : name = k ∨ name ∈ cachesKeys t := by simpa [cachesKeys] using h
        exact this.resolve_left h1
      obtain ⟨c, hc⟩ := ih h3
      exact ⟨c, by simpa [List.lookup, h2] using hc⟩

theorem currentEntry_cachesPut_same (cs : CacheStorage) (url : String) (r : Response) :
    currentEntry (cachesPut cs CACHE_NAME url r) url = some r := by
  unfold currentEntry cachesPut
  rw [cacheNamed_map_put]
  obtain ⟨c, hc⟩ := cacheNamed_isSome_of_mem (cachesOpen_keys cs CACHE_NAME).1
  rw [hc]
  exact cacheMatch_cachePut_same c url r

theorem currentEntry_cachesPut_other (cs : CacheStorage) (url key : String) (r : Response)
    (hne : key ≠ url) :
    currentEntry (cachesPut cs CACHE_NAME url r) key
      = currentEntry (cachesOpen cs CACHE_NAME) key := by
  unfold currentEntry cachesPut
  rw [cacheNamed_map_put]
  cases cacheNamed (cachesOpen cs CACHE_NAME) CACHE_NAME with
  | none => rfl
  | some c => exact cacheMatch_cachePut_other c url key r hne

theorem cachesPut_single (c : Cache) (url : String) (r : Response) :
    cachesPut [(CACHE_NAME, c)] CACHE_NAME url r = [(CACHE_NAME, cachePut c url r)] := by
  simp [cachesPut, cachesOpen, cachesKeys]

theorem cachesMatch_single (c : Cache) (url : String) :
    cachesMatch [(CACHE_NAME, c)] url = cacheMatch c url
    ∧ currentEntry [(CACHE_NAME, c)] url = cacheMatch c url := by
  constructor
  · unfold cachesMatch
    simp [List.findSome?]
    cases cacheMatch c url <;> rfl
  · simp [currentEntry, cacheNamed, List.lookup]

theorem onFetch_caches (origin : String) (network : Request → Option Response)
    (request : Request) (cs : CacheStorage) :
    (onFetch origin network request cs).caches = cs
    ∨ ∃ r, network request = some r ∧ r.status = 200 ∧ r.type = "basic"
        ∧ (onFetch origin network request cs).caches = cachesPut cs CACHE_NAME request.url r := by
  unfold onFetch
  split
  · exact Or.inl rfl
  · split
    · exact Or.inl rfl
    · split
      · exact Or.inl rfl
      · split
        · exact Or.inl rfl
        · split
          · rename_i r hr
            split
            · rename_i h
              exact Or.inr ⟨r, hr, h.1, h.2, rfl⟩
            · exact Or.inl rfl
          · split
            · exact Or.inl rfl
            · split <;> exact Or.inl rfl


theorem fetchAll_keys (origin : String) (network : Request → Option Response)
    (paths : List String) (entries : List (String × Response))
    (h : fetchAll origin network paths = some entries) :
    entries.map (fun entry => entry.1) = paths.map (fun path => origin ++ path) := by
  induction paths generalizing entries with
  | nil =>
    simp [fetchAll] at h
    subst h
    rfl
  | cons path rest ih =>
    unfold fetchAll at h
    split at h
    · split at h
      · cases hr : fetchAll origin network rest with
        | none => simp [hr] at h
        | some tail =>
          simp [hr] at h
          subst h
          simp [ih tail hr]
      · cases h
    · cases h

theorem foldl_cachesPut_inv (entries : List (String × Response)) (cs : CacheStorage)
    (key : String) (hC : CACHE_NAME ∈ cachesKeys cs)
    (hk : key ∈ entries.map (fun entry => entry.1) ∨ (currentEntry cs key).isSome = true) :
    cachesKeys (entries.foldl (fun acc entry => cachesPut acc CACHE_NAME entry.1 entry.2) cs)
        = cachesKeys cs
    ∧ (currentEntry (entries.foldl
        (fun acc entry => cachesPut acc CACHE_NAME entry.1 entry.2) cs) key).isSome = true := by
  induction entries generalizing cs with
  | nil =>
    refine ⟨rfl, ?_⟩
    rcases hk with hk | hk
    · simp at hk
    · exact hk
  | cons e t ih =>
    rw [List.foldl_cons]
    have hkeys : cachesKeys (cachesPut cs CACHE_NAME e.1 e.2) = cachesKeys cs := by
      rw [cachesPut_keys, cachesOpen_of_mem hC]
    have hC2 : CACHE_NAME ∈ cachesKeys (cachesPut cs CACHE_NAME e.1 e.2) := by
      rw [hkeys]; exact hC
    have hk2 : key ∈ t.map (fun entry => entry.1)
        ∨ (currentEntry (cachesPut cs CACHE_NAME e.1 e.2) key).isSome = true := by
      by_cases he : key = e.1
      · right
        rw [he, currentEntry_cachesPut_same]
        rfl
      · rcases hk with hk | hk
        · left
          have : key = e.1 ∨ key ∈ t.map (fun entry => entry.1) := by simpa using hk
          exact this.resolve_left he
        · right
          rw [currentEntry_cachesPut_other cs e.1 key e.2 he, cachesOpen_of_mem hC]
          exact hk
    obtain ⟨a1, a2⟩ := ih (cachesPut cs CACHE_NAME e.1 e.2) hC2 hk2
    exact ⟨a1.trans hkeys, a2⟩

theorem onInstall_inv (origin : String) (network : Request → Option Response)
    (cs : CacheStorage) (hN : (cachesKeys cs).Nodup)
    (hOk : (onInstall origin network cs).2 = true) :
    (cachesKeys (onInstall origin network cs).1).Nodup
    ∧ CACHE_NAME ∈ cachesKeys (onInstall origin network cs).1
    ∧ (currentEntry (onInstall origin network cs).1 (origin ++ "/index.html")).isSome = true := by
  unfold onInstall at hOk ⊢
  cases hf : fetchAll origin network ASSETS with
  | none => simp [hf] at hOk
  | some entries =>
    simp only [hf]
    obtain ⟨o1, o2⟩ := cachesOpen_keys cs CACHE_NAME
    have hmem : origin ++ "/index.html" ∈ entries.map (fun entry => entry.1) := by
      rw [fetchAll_keys origin network ASSETS entries hf]
      simp [ASSETS]
    obtain ⟨a1, a2⟩ := foldl_cachesPut_inv entries (cachesOpen cs CACHE_NAME)
      (origin ++ "/index.html") o1 (Or.inl hmem)
    refine ⟨?_, ?_, a2⟩
    · rw [a1]; exact o2 hN
    · rw [a1]; exact o1

theorem serving_inv {origin : String} {cs : CacheStorage} (h : Serving origin cs) :
    ∃ c, cs = [(CACHE_NAME, c)] ∧ (cacheMatch c (origin ++ "/index.html")).isSome = true := by
  induction h with
  | activated cs0 network hN hOk =>
    obtain ⟨i1, i2, i3⟩ := onInstall_inv origin network cs0 hN hOk
    obtain ⟨c, hc1, hc2⟩ := filter_current_single _ i1 i2
    refine ⟨c, by rw [onActivate_eq_filter]; exact hc1, ?_⟩
    unfold currentEntry at i3
    rw [hc2] at i3
    exact i3
  | fetched cs0 network request _ ih =>
    obtain ⟨c, hc, hi⟩ := ih
    rcases onFetch_caches origin network request cs0 with h1 | ⟨r, -, -, -, h1⟩
    · exact ⟨c, by rw [h1]; exact hc, hi⟩
    · refine ⟨cachePut c request.url r, by rw [h1, hc, cachesPut_single], ?_⟩
      by_cases hu : origin ++ "/index.html" = request.url
      · rw [hu, cacheMatch_cachePut_same]
        rfl
      · rw [cacheMatch_cachePut_other c request.url _ r hu]
        exact hi


/-! ## The fetch listener: lemmas -/

theorem includes_href_of_inDomain (u : Url) (domain : String) (h : InDomain u.host domain) :
    includes u.href domain = true := by
  have hh : domain.data <:+: u.host.data := by
    rcases h with h | h
    · exact h ▸ List.infix_refl _
    · have h1 : domain.data <:+ ("." ++ domain).data := by
        rw [String.data_append]
        exact List.suffix_append _ _
      exact (h1.trans h).isInfix
  have hu : u.host.data <:+: u.href.data := by
    unfold Url.href
    simp only [String.data_append]
    exact List.infix_append _ _ _
  simpa [includes] using hh.trans hu

theorem includes_img_of_false (url : String) (h : includes url "youtube.com" = false) :
    includes url "img.youtube.com" = false := by
  by_contra hc
  have h1 : "img.youtube.com".data <:+: url.data := by simpa [includes] using hc
  have h2 : "youtube.com".data <:+: "img.youtube.com".data := by decide
  have h3 : includes url "youtube.com" = true := by simpa [includes] using h2.trans h1
  rw [h] at h3
  cases h3

theorem onFetch_of_excluded (origin : String) (network : Request → Option Response)
    (request : Request) (cs : CacheStorage)
    (h : request.method ≠ "GET" ∨ includes request.url "youtube.com" = true
      ∨ includes request.url "googleapis.com" = true) :
    onFetch origin network request cs = passThrough cs := by
  unfold onFetch
  split
  · rfl
  · split
    · rfl
    · split
      · rfl
      · rename_i h1 h2 h3
        rcases h with h | h | h
        · exact absurd h h1
        · exact absurd h h2
        · exact absurd h h3

theorem onFetch_of_online {origin : String} {network : Request → Option Response}
    {request : Request} {r : Response} (cs : CacheStorage) (hI : Intercepted request)
    (hN : network request = some r) :
    onFetch origin network request cs
      = if r.status = 200 ∧ r.type = "basic" then
          { respondWith := some (.fulfilled (some r))
            caches := cachesPut cs CACHE_NAME request.url r
            effects := [.fetch request.url, .cachesOpen CACHE_NAME,
              .cachePut CACHE_NAME request.url] }
        else
          { respondWith := some (.fulfilled (some r))
            caches := cs
            effects := [.fetch request.url] } := by
  obtain ⟨h1, h2, h3⟩ := hI
  have h4 := includes_img_of_false request.url h2
  unfold onFetch
  simp only [h1, h2, h3, h4, hN, ne_eq, not_true_eq_false, if_false, Bool.false_eq_true]

theorem onFetch_of_offline {origin : String} {network : Request → Option Response}
    {request : Request} (cs : CacheStorage) (hI : Intercepted request)
    (hN : network request = none) :
    onFetch origin network request cs
      = match cachesMatch cs request.url with
        | some cached =>
          { respondWith := some (.fulfilled (some cached))
            caches := cs
            effects := [.fetch request.url, .cachesMatch request.url] }
        | none =>
          if request.mode = "navigate" then
            { respondWith := some (.fulfilled (cachesMatch cs (origin ++ "/index.html")))
              caches := cs
              effects := [.fetch request.url, .cachesMatch request.url,
                .cachesMatch (origin ++ "/index.html")] }
          else
            { respondWith := some (.fulfilled none)
              caches := cs
              effects := [.fetch request.url, .cachesMatch request.url] } := by
  obtain ⟨h1, h2, h3⟩ := hI
  have h4 := includes_img_of_false request.url h2
  unfold onFetch
  simp only [h1, h2, h3, h4, hN, ne_eq, not_true_eq_false, if_false, Bool.false_eq_true]


theorem foldl_cachesPut_keys (entries : List (String × Response)) (cs : CacheStorage)
    (hC : CACHE_NAME ∈ cachesKeys cs) :
    cachesKeys (entries.foldl (fun acc entry => cachesPut acc CACHE_NAME entry.1 entry.2) cs)
      = cachesKeys cs := by
  induction entries generalizing cs with
  | nil => rfl
  | cons e t ih =>
    rw [List.foldl_cons]
    have hkeys : cachesKeys (cachesPut cs CACHE_NAME e.1 e.2) = cachesKeys cs := by
      rw [cachesPut_keys, cachesOpen_of_mem hC]
    rw [ih _ (by rw [hkeys]; exact hC), hkeys]

theorem onInstall_keys (origin : String) (network : Request → Option Response)
    (cs : CacheStorage) (hN : (cachesKeys cs).Nodup) :
    (cachesKeys (onInstall origin network cs).1).Nodup
    ∧ CACHE_NAME ∈ cachesKeys (onInstall origin network cs).1 := by
  obtain ⟨o1, o2⟩ := cachesOpen_keys cs CACHE_NAME
  unfold onInstall
  cases hf : fetchAll origin network ASSETS with
  | none => exact ⟨o2 hN, o1⟩
  | some entries =>
    simp only
    rw [foldl_cachesPut_keys entries _ o1]
    exact ⟨o2 hN, o1⟩

theorem runFetches_inv (origin : String) (url : String)
    (events : List (Request × (Request → Option Response))) (cs : CacheStorage)
    (hS : Serving origin cs)
    (hEv : ∀ ev ∈ events, ev.1.url ≠ url ∨ ev.2 ev.1 = none) :
    Serving origin (runFetches origin events cs)
    ∧ currentEntry (runFetches origin events cs) url = currentEntry cs url := by
  induction events generalizing cs with
  | nil => exact ⟨hS, rfl⟩
  | cons ev t ih =>
    have hS2 : Serving origin (onFetch origin ev.2 ev.1 cs).caches :=
      Serving.fetched cs ev.2 ev.1 hS
    obtain ⟨a1, a2⟩ := ih (onFetch origin ev.2 ev.1 cs).caches hS2
      (fun e he => hEv e (List.mem_cons_of_mem _ he))
    refine ⟨a1, ?_⟩
    show currentEntry (runFetches origin t (onFetch origin ev.2 ev.1 cs).caches) url = _
    rw [a2]
    rcases onFetch_caches origin ev.2 ev.1 cs with h1 | ⟨r, hr, -, -, h1⟩
    · rw [h1]
    · rw [h1]
      rcases hEv ev (List.mem_cons_self _ _) with h2 | h2
      · obtain ⟨c, hc, -⟩ := serving_inv hS
        rw [currentEntry_cachesPut_other cs ev.1.url url r (fun h => h2 h.symm),
          cachesOpen_of_mem (by rw [hc]; simp [cachesKeys])]
      · rw [h2] at hr
        cases hr

/-! ## The fetch listener: claims -/

/-- C12. A request whose host is `youtube.com`, `img.youtube.com`,
`googleapis.com` or a subdomain of one of them is not intercepted, whatever its
method, its mode and the network do: the listener returns without
`respondWith`, with no effect on any cache and no read from any cache. -/
theorem third_party_not_intercepted (origin : String) (network : Request → Option Response)
    (request : Request) (cs : CacheStorage) (u : Url) (hU : request.url = u.href)
    (hT : ThirdParty u.host) :
    onFetch origin network request cs = passThrough cs
    ∧ (onFetch origin network request cs).respondWith = none
    ∧ (onFetch origin network request cs).caches = cs
    ∧ (onFetch origin network request cs).effects = [] := by
  have h : onFetch origin network request cs = passThrough cs := by
    apply onFetch_of_excluded
    right
    rw [hU]
    rcases hT with h | h | h
    · exact Or.inl (includes_href_of_inDomain u _ h)
    · left
      by_contra hc
      have h1 := includes_img_of_false u.href (by simpa using hc)
      rw [includes_href_of_inDomain u _ h] at h1
      cases h1
    · exact Or.inr (includes_href_of_inDomain u _ h)
  rw [h]
  exact ⟨rfl, rfl, rfl, rfl⟩

/-- C12 on a player frame URL: a GET to `www.youtube.com` while the network is
down is passed through and the cache is not consulted. -/
theorem third_party_not_intercepted_witness :
    (Request.mk "GET" "https://www.youtube.com/embed/abc" "navigate").url
        = (Url.mk "https" "www.youtube.com" "/embed/abc").href
    ∧ ThirdParty "www.youtube.com"
    ∧ (onFetch sampleOrigin offlineNetwork
        (Request.mk "GET" "https://www.youtube.com/embed/abc" "navigate")
        servingStore).effects = [] :=
  ⟨by decide, Or.inl (Or.inr (by decide)),
    (third_party_not_intercepted sampleOrigin offlineNetwork
      (Request.mk "GET" "https://www.youtube.com/embed/abc" "navigate") servingStore
      (Url.mk "https" "www.youtube.com" "/embed/abc") (by decide)
      (Or.inl (Or.inr (by decide)))).2.2.2⟩

/-- C14. A request whose method is not GET is passed through: the listener
returns without `respondWith`, fetches nothing and neither reads nor writes a
cache. -/
theorem non_get_passes_through (origin : String) (network : Request → Option Response)
    (request : Request) (cs : CacheStorage) (h : request.method ≠ "GET") :
    onFetch origin network request cs = passThrough cs
    ∧ (onFetch origin network request cs).respondWith = none
    ∧ (onFetch origin network request cs).caches = cs
    ∧ (onFetch origin network request cs).effects = [] := by
  rw [onFetch_of_excluded origin network request cs (Or.inl h)]
  exact ⟨rfl, rfl, rfl, rfl⟩

/-- C14 on a POST to the application's own origin. -/
theorem non_get_passes_through_witness :
    (Request.mk "POST" "https://bhimgeet.example/index.html" "cors").method ≠ "GET"
    ∧ (onFetch sampleOrigin onlineNetwork
        (Request.mk "POST" "https://bhimgeet.example/index.html" "cors")
        servingStore).respondWith = none :=
  ⟨by decide,
    (non_get_passes_through sampleOrigin onlineNetwork
      (Request.mk "POST" "https://bhimgeet.example/index.html" "cors") servingStore
      (by decide)).2.1⟩


/-- C13, as stated, fails: a GET to the application's own origin whose query
string contains `youtube.com` is not intercepted, although its host is not a
third-party host. -/
theorem own_origin_get_not_intercepted :
    (sampleGet "/search?q=youtube.com" "cors").method = "GET"
    ∧ (sampleGet "/search?q=youtube.com" "cors").url
        = (Url.mk "https" "bhimgeet.example" "/search?q=youtube.com").href
    ∧ ¬ ThirdParty "bhimgeet.example"
    ∧ (onFetch sampleOrigin onlineNetwork (sampleGet "/search?q=youtube.com" "cors")
        servingStore).respondWith = none := by
  refine ⟨rfl, by decide, ?_, by decide⟩
  unfold ThirdParty InDomain
  decide

/-- C13, amended. The listener intercepts exactly the GET requests whose URL
text contains neither `youtube.com` nor `googleapis.com`; an intercepted
request is handled network first: the fetch is the first effect, a response of
the network is the result, and the caches are consulted only when the fetch
rejects. -/
theorem get_intercepted_iff (origin : String) (network : Request → Option Response)
    (request : Request) (cs : CacheStorage) :
    ((onFetch origin network request cs).respondWith ≠ none ↔ Intercepted request)
    ∧ (Intercepted request →
        (onFetch origin network request cs).effects.head? = some (.fetch request.url))
    ∧ (Intercepted request → ∀ r, network request = some r →
        (onFetch origin network request cs).respondWith = some (.fulfilled (some r))
        ∧ ∀ url, Effect.cachesMatch url ∉ (onFetch origin network request cs).effects)
    ∧ (Intercepted request → network request = none →
        (onFetch origin network request cs).respondWith
          = some (.fulfilled (match cachesMatch cs request.url with
              | some cached => some cached
              | none =>
                if request.mode = "navigate" then cachesMatch cs (origin ++ "/index.html")
                else none))) := by
  have hon : ∀ r, Intercepted request → network request = some r →
      (onFetch origin network request cs).respondWith = some (.fulfilled (some r))
      ∧ (onFetch origin network request cs).effects.head? = some (.fetch request.url)
      ∧ ∀ url, Effect.cachesMatch url ∉ (onFetch origin network request cs).effects := by
    intro r hI hN
    rw [onFetch_of_online cs hI hN]
    split <;> simp
  have hoff : Intercepted request → network request = none →
      (onFetch origin network request cs).respondWith
          = some (.fulfilled (match cachesMatch cs request.url with
              | some cached => some cached
              | none =>
                if request.mode = "navigate" then cachesMatch cs (origin ++ "/index.html")
                else none))
      ∧ (onFetch origin network request cs).effects.head? = some (.fetch request.url) := by
    intro hI hN
    rw [onFetch_of_offline cs hI hN]
    cases cachesMatch cs request.url with
    | some cached => simp
    | none =>
      simp only
      split <;> simp
  refine ⟨⟨?_, ?_⟩, ?_, ?_, ?_⟩
  · intro h
    by_contra hI
    apply h
    have : request.method ≠ "GET" ∨ includes request.url "youtube.com" = true
        ∨ includes request.url "googleapis.com" = true := by
      unfold Intercepted at hI
      by_cases h1 : request.method = "GET"
      · right
        by_cases h2 : includes request.url "youtube.com" = true
        · exact Or.inl h2
        · right
          by_contra h3
          exact hI ⟨h1, by simpa using h2, by simpa using h3⟩
      · exact Or.inl h1
    rw [onFetch_of_excluded origin network request cs this]
    rfl
  · intro hI
    cases hN : network request with
    | none => rw [(hoff hI hN).1]; simp
    | some r => rw [(hon r hI hN).1]; simp
  · intro hI
    cases hN : network request with
    | none => exact (hoff hI hN).2
    | some r => exact (hon r hI hN).2.1
  · intro hI r hN
    exact ⟨(hon r hI hN).1, (hon r hI hN).2.2⟩
  · intro hI hN
    exact (hoff hI hN).1

/-- C13 amended, on a GET for the shell script of the sample origin: it is
intercepted and the fetch comes first. -/
theorem get_intercepted_iff_witness :
    Intercepted (sampleGet "/app.js?v=5" "no-cors")
    ∧ (onFetch sampleOrigin onlineNetwork (sampleGet "/app.js?v=5" "no-cors")
        servingStore).effects.head? = some (.fetch (sampleOrigin ++ "/app.js?v=5")) :=
  ⟨by unfold Intercepted; decide,
    (get_intercepted_iff sampleOrigin onlineNetwork (sampleGet "/app.js?v=5" "no-cors")
      servingStore).2.1 (by unfold Intercepted; decide)⟩


/-- C15. When the fetch of an intercepted request resolves, the promise is
fulfilled with that very response and no cache is read; the response is stored
in the cache `CACHE_NAME` under the request's URL exactly when its status is
200 and its type is `basic`, and otherwise the caches are left as they were. -/
theorem network_first_success (origin : String) (network : Request → Option Response)
    (request : Request) (cs : CacheStorage) (r : Response) (hI : Intercepted request)
    (hN : network request = some r) :
    (onFetch origin network request cs).respondWith = some (.fulfilled (some r))
    ∧ callerOutcome network request (onFetch origin network request cs) = some r
    ∧ (∀ url, Effect.cachesMatch url ∉ (onFetch origin network request cs).effects)
    ∧ (r.status = 200 ∧ r.type = "basic" →
        (onFetch origin network request cs).caches = cachesPut cs CACHE_NAME request.url r
        ∧ currentEntry (onFetch origin network request cs).caches request.url = some r
        ∧ Effect.cachePut CACHE_NAME request.url ∈ (onFetch origin network request cs).effects)
    ∧ (¬ (r.status = 200 ∧ r.type = "basic") →
        (onFetch origin network request cs).caches = cs
        ∧ ∀ name url, Effect.cachePut name url ∉ (onFetch origin network request cs).effects) := by
  rw [onFetch_of_online cs hI hN]
  by_cases h : r.status = 200 ∧ r.type = "basic"
  · rw [if_pos h]
    refine ⟨rfl, rfl, by simp, fun _ => ⟨rfl, currentEntry_cachesPut_same cs request.url r,
      by simp⟩, fun hn => absurd h hn⟩
  · rw [if_neg h]
    exact ⟨rfl, rfl, by simp, fun hy => absurd hy h, fun _ => ⟨rfl, by simp⟩⟩

/-- C15 on the sample origin: a 200 `basic` answer for the style sheet is
returned and stored; a 404 answer is returned and not stored. -/
theorem network_first_success_witness :
    Intercepted (sampleGet "/style.css?v=5" "no-cors")
    ∧ currentEntry (onFetch sampleOrigin
          (fun _ => some (Response.mk 200 "basic" "body \x7b color: red \x7d"))
          (sampleGet "/style.css?v=5" "no-cors") servingStore).caches
        (sampleOrigin ++ "/style.css?v=5")
        = some (Response.mk 200 "basic" "body \x7b color: red \x7d")
    ∧ (onFetch sampleOrigin (fun _ => some (Response.mk 404 "basic" "not found"))
          (sampleGet "/style.css?v=5" "no-cors") servingStore).caches = servingStore :=
  ⟨by unfold Intercepted; decide,
    ((network_first_success sampleOrigin
      (fun _ => some (Response.mk 200 "basic" "body \x7b color: red \x7d"))
      (sampleGet "/style.css?v=5" "no-cors") servingStore
      (Response.mk 200 "basic" "body \x7b color: red \x7d")
      (by unfold Intercepted; decide) rfl).2.2.2.1 (by decide)).2.1,
    ((network_first_success sampleOrigin (fun _ => some (Response.mk 404 "basic" "not found"))
      (sampleGet "/style.css?v=5" "no-cors") servingStore
      (Response.mk 404 "basic" "not found")
      (by unfold Intercepted; decide) rfl).2.2.2.2 (by decide)).1⟩

/-- C16. When the fetch of an intercepted request rejects, the result is the
entry of the current generation for the request if there is one; if there is
none and the request is a navigation, the result is the root document stored
under `/index.html`, which a serving storage always holds. -/
theorem offline_fallback_chain (origin : String) (network : Request → Option Response)
    (request : Request) (cs : CacheStorage) (hS : Serving origin cs)
    (hI : Intercepted request) (hN : network request = none) :
    (∀ cached, currentEntry cs request.url = some cached →
        (onFetch origin network request cs).respondWith = some (.fulfilled (some cached)))
    ∧ (currentEntry cs request.url = none → request.mode = "navigate" →
        ∃ root, currentEntry cs (origin ++ "/index.html") = some root
          ∧ (onFetch origin network request cs).respondWith = some (.fulfilled (some root)))
    ∧ (onFetch origin network request cs).caches = cs := by
  obtain ⟨c, hc, hroot⟩ := serving_inv hS
  rw [onFetch_of_offline cs hI hN]
  subst hc
  rw [(cachesMatch_single c request.url).1, (cachesMatch_single c request.url).2,
    (cachesMatch_single c (origin ++ "/index.html")).1,
    (cachesMatch_single c (origin ++ "/index.html")).2]
  refine ⟨?_, ?_, ?_⟩
  · intro cached h
    rw [h]
  · intro h hnav
    rw [h]
    obtain ⟨root, hr⟩ := Option.isSome_iff_exists.1 hroot
    exact ⟨root, hr, by simp [hnav, hr]⟩
  · cases cacheMatch c request.url with
    | some cached => rfl
    | none =>
      simp only
      split <;> rfl

/-- C16 on the sample origin, offline: a navigation to a page that is not
cached gets the root document stored at install. -/
theorem offline_fallback_chain_witness :
    Serving sampleOrigin servingStore
    ∧ Intercepted (sampleGet "/songs/12" "navigate")
    ∧ currentEntry servingStore (sampleGet "/songs/12" "navigate").url = none
    ∧ (onFetch sampleOrigin offlineNetwork (sampleGet "/songs/12" "navigate")
        servingStore).respondWith
        = some (.fulfilled (some (Response.mk 200 "basic" (sampleOrigin ++ "/index.html")))) :=
  ⟨Serving.activated [] onlineNetwork (by decide) (by decide),
    by unfold Intercepted; decide, by decide,
    by
      obtain ⟨root, hr, hres⟩ := (offline_fallback_chain sampleOrigin offlineNetwork
        (sampleGet "/songs/12" "navigate") servingStore
        (Serving.activated [] onlineNetwork (by decide) (by decide))
        (by unfold Intercepted; decide) rfl).2.1 (by decide) rfl
      rw [hres]
      have : currentEntry servingStore (sampleOrigin ++ "/index.html")
          = some (Response.mk 200 "basic" (sampleOrigin ++ "/index.html")) := by decide
      rw [this] at hr
      cases hr
      rfl⟩


/-- C17, as stated, fails: on a double miss the promise given to `respondWith`
is not rejected, it is fulfilled with `undefined`. Shown for an image that is
not cached, and for a navigation on a storage without any cache. -/
theorem double_miss_not_rejected :
    Intercepted (sampleGet "/missing.png" "no-cors")
    ∧ offlineNetwork (sampleGet "/missing.png" "no-cors") = none
    ∧ cachesMatch servingStore (sampleGet "/missing.png" "no-cors").url = none
    ∧ (onFetch sampleOrigin offlineNetwork (sampleGet "/missing.png" "no-cors")
        servingStore).respondWith = some (.fulfilled none)
    ∧ ¬ ((onFetch sampleOrigin offlineNetwork (sampleGet "/missing.png" "no-cors")
        servingStore).respondWith = some .rejected)
    ∧ cachesMatch [] (sampleGet "/songs/12" "navigate").url = none
    ∧ cachesMatch [] (sampleOrigin ++ "/index.html") = none
    ∧ ¬ ((onFetch sampleOrigin offlineNetwork (sampleGet "/songs/12" "navigate")
        []).respondWith = some .rejected) := by
  refine ⟨by unfold Intercepted; decide, rfl, by decide, by decide, by decide, rfl, rfl,
    by decide⟩

/-- C17, amended. On a double miss (the fetch rejects, no cache has a matching
entry and, for a navigation, none has the root document either; or the request
is no navigation and no cache has a matching entry) the promise is fulfilled
with `undefined`; as that is not a response, the page that made the request
gets a network error. The caches are left as they were. -/
theorem double_miss_fails_caller (origin : String) (network : Request → Option Response)
    (request : Request) (cs : CacheStorage) (hI : Intercepted request)
    (hN : network request = none) (hMiss : cachesMatch cs request.url = none)
    (hRoot : request.mode = "navigate" → cachesMatch cs (origin ++ "/index.html") = none) :
    (onFetch origin network request cs).respondWith = some (.fulfilled none)
    ∧ callerOutcome network request (onFetch origin network request cs) = none
    ∧ (onFetch origin network request cs).caches = cs := by
  rw [onFetch_of_offline cs hI hN, hMiss]
  by_cases hnav : request.mode = "navigate"
  · simp [hnav, hRoot hnav, callerOutcome]
  · simp [hnav, callerOutcome]

/-- C17 amended, on the image that is not cached: the page gets a network
error. -/
theorem double_miss_fails_caller_witness :
    Intercepted (sampleGet "/missing.png" "no-cors")
    ∧ cachesMatch servingStore (sampleGet "/missing.png" "no-cors").url = none
    ∧ callerOutcome offlineNetwork (sampleGet "/missing.png" "no-cors")
        (onFetch sampleOrigin offlineNetwork (sampleGet "/missing.png" "no-cors")
          servingStore) = none :=
  ⟨by unfold Intercepted; decide, by decide,
    (double_miss_fails_caller sampleOrigin offlineNetwork (sampleGet "/missing.png" "no-cors")
      servingStore (by unfold Intercepted; decide) rfl (by decide)
      (fun h => absurd h (by decide))).2.1⟩

/-- C18. If the fetch of an intercepted request resolved with a response of
status 200 and type `basic` (so that it was stored), then a later GET for the
same URL whose fetch rejects is answered with that response, body included,
whatever fetch events came in between, as long as none of them stored a newer
response for the same URL. -/
theorem cache_round_trip (origin : String) (network later : Request → Option Response)
    (request again : Request) (cs : CacheStorage) (r : Response)
    (events : List (Request × (Request → Option Response)))
    (hS : Serving origin cs) (hI : Intercepted request) (hN : network request = some r)
    (hOk : r.status = 200 ∧ r.type = "basic")
    (hEv : ∀ ev ∈ events, ev.1.url ≠ request.url ∨ ev.2 ev.1 = none)
    (hG : again.method = "GET") (hU : again.url = request.url) (hOff : later again = none) :
    (onFetch origin later again
        (runFetches origin events (onFetch origin network request cs).caches)).respondWith
      = some (.fulfilled (some r))
    ∧ (callerOutcome later again (onFetch origin later again
        (runFetches origin events (onFetch origin network request cs).caches))).map
          (fun response => response.body) = some r.body := by
  have hS1 : Serving origin (onFetch origin network request cs).caches :=
    Serving.fetched cs network request hS
  obtain ⟨hS2, hE⟩ := runFetches_inv origin request.url events _ hS1 hEv
  have hstored : currentEntry (onFetch origin network request cs).caches request.url
      = some r := by
    rw [onFetch_of_online cs hI hN, if_pos hOk]
    exact currentEntry_cachesPut_same cs request.url r
  have hI2 : Intercepted again := ⟨hG, by rw [hU]; exact hI.2.1, by rw [hU]; exact hI.2.2⟩
  obtain ⟨c, hc, -⟩ := serving_inv hS2
  have hm : cachesMatch (runFetches origin events (onFetch origin network request cs).caches)
      again.url = some r := by
    rw [hU, ← hstored, ← hE, hc, (cachesMatch_single c request.url).1,
      (cachesMatch_single c request.url).2]
  rw [onFetch_of_offline _ hI2 hOff, hm]
  exact ⟨rfl, rfl⟩


/-- C18 on the sample origin: the catalog data fetched online as `songs v2`
is what an offline request gets later, after a fetch of the style sheet in
between. -/
theorem cache_round_trip_witness :
    Serving sampleOrigin servingStore
    ∧ Intercepted (sampleGet "/data.js?v=5" "no-cors")
    ∧ (onFetch sampleOrigin offlineNetwork (sampleGet "/data.js?v=5" "no-cors")
        (runFetches sampleOrigin [(sampleGet "/style.css?v=5" "no-cors", onlineNetwork)]
          (onFetch sampleOrigin (fun _ => some (Response.mk 200 "basic" "songs v2"))
            (sampleGet "/data.js?v=5" "no-cors") servingStore).caches)).respondWith
        = some (.fulfilled (some (Response.mk 200 "basic" "songs v2"))) :=
  ⟨Serving.activated [] onlineNetwork (by decide) (by decide),
    by unfold Intercepted; decide,
    (cache_round_trip sampleOrigin (fun _ => some (Response.mk 200 "basic" "songs v2"))
      offlineNetwork (sampleGet "/data.js?v=5" "no-cors") (sampleGet "/data.js?v=5" "no-cors")
      servingStore (Response.mk 200 "basic" "songs v2")
      [(sampleGet "/style.css?v=5" "no-cors", onlineNetwork)]
      (Serving.activated [] onlineNetwork (by decide) (by decide))
      (by unfold Intercepted; decide) rfl (by decide)
      (by intro ev hev
          simp at hev
          subst hev
          exact Or.inl (by decide))
      rfl rfl rfl).1⟩

/-- C19. Activation deletes every cache whose name is not `CACHE_NAME` and
keeps the others as they are. After the install step, which opens the current
cache, and the activation, from any storage with distinct cache names: exactly
one cache exists, the current one, with the entries it had, and a lookup over
all caches finds entries of the current generation only. -/
theorem activation_purges (origin : String) (network : Request → Option Response)
    (cs : CacheStorage) (hN : (cachesKeys cs).Nodup) :
    onActivate cs = cs.filter (fun p => decide (p.1 = CACHE_NAME))
    ∧ (∀ p ∈ cs, p.1 ≠ CACHE_NAME → p ∉ onActivate cs)
    ∧ cachesKeys (onActivate (onInstall origin network cs).1) = [CACHE_NAME]
    ∧ cacheNamed (onActivate (onInstall origin network cs).1) CACHE_NAME
        = cacheNamed (onInstall origin network cs).1 CACHE_NAME
    ∧ (∀ url, cachesMatch (onActivate (onInstall origin network cs).1) url
        = currentEntry (onInstall origin network cs).1 url) := by
  obtain ⟨i1, i2⟩ := onInstall_keys origin network cs hN
  obtain ⟨c, hc1, hc2⟩ := filter_current_single _ i1 i2
  refine ⟨onActivate_eq_filter cs, ?_, ?_, ?_, ?_⟩
  · intro p _ hne hmem
    rw [onActivate_eq_filter] at hmem
    have := (List.mem_filter.1 hmem).2
    simp at this
    exact hne this
  · rw [onActivate_eq_filter, hc1]
    rfl
  · rw [onActivate_eq_filter, hc1, hc2]
    simp [cacheNamed, List.lookup]
  · intro url
    rw [onActivate_eq_filter, hc1, (cachesMatch_single c url).1]
    unfold currentEntry
    rw [hc2]
    rfl

/-- C19 on a storage holding two old generations: after install and
activation only `bhimgeet-v5` is left and an entry of an old generation is no
longer found. -/
theorem activation_purges_witness :
    (cachesKeys [("bhimgeet-v3", [("https://bhimgeet.example/old.js", Response.mk 200 "basic"
        "old")]), ("bhimgeet-v4", [])]).Nodup
    ∧ cachesKeys (onActivate (onInstall sampleOrigin onlineNetwork
        [("bhimgeet-v3", [("https://bhimgeet.example/old.js", Response.mk 200 "basic" "old")]),
          ("bhimgeet-v4", [])]).1) = ["bhimgeet-v5"]
    ∧ cachesMatch (onActivate (onInstall sampleOrigin onlineNetwork
        [("bhimgeet-v3", [("https://bhimgeet.example/old.js", Response.mk 200 "basic" "old")]),
          ("bhimgeet-v4", [])]).1) "https://bhimgeet.example/old.js" = none :=
  ⟨by decide,
    (activation_purges sampleOrigin onlineNetwork
      [("bhimgeet-v3", [("https://bhimgeet.example/old.js", Response.mk 200 "basic" "old")]),
        ("bhimgeet-v4", [])] (by decide)).2.2.1,
    ((activation_purges sampleOrigin onlineNetwork
      [("bhimgeet-v3", [("https://bhimgeet.example/old.js", Response.mk 200 "basic" "old")]),
        ("bhimgeet-v4", [])] (by decide)).2.2.2.2 "https://bhimgeet.example/old.js").trans
      (by decide)⟩

/-! ## Font size, song of the day, skip-forward loop: lemmas -/

theorem toInt32_range (x : Int) : -2147483648 ≤ toInt32 x ∧ toInt32 x < 2147483648 := by
  unfold toInt32
  omega

theorem hashStep_eq (hash : Int) (code : Nat) :
    hashStep hash code = toInt32 (31 * hash + Int.ofNat code) := by
  unfold hashStep toInt32
  omega

theorem foldl_hashStep_range (codes : List Nat) (init : Int)
    (h : -2147483648 ≤ init ∧ init < 2147483648) :
    -2147483648 ≤ codes.foldl hashStep init ∧ codes.foldl hashStep init < 2147483648 := by
  induction codes generalizing init with
  | nil => exact h
  | cons c t ih =>
    rw [List.foldl_cons]
    apply ih
    rw [hashStep_eq]
    exact toInt32_range _

theorem foldl_hashStep_eq (codes : List Nat) (init : Int) :
    codes.foldl hashStep init
      = codes.foldl (fun hash code => toInt32 (31 * hash + Int.ofNat code)) init := by
  induction codes generalizing init with
  | nil => rfl
  | cons c t ih => rw [List.foldl_cons, List.foldl_cons, ih, hashStep_eq]

theorem dense_nextOf {env : Env} {n p : Nat} {song : Song} (hCat : DenseCatalog env n)
    (hId : song.id = Int.ofNat p) (hp : p < n) :
    ∃ next, nextOf env song = some next ∧ next.id = Int.ofNat (p + 1) := by
  have hmem : Int.ofNat p + 1 ∈ env.SONGS.map (fun s => s.id) := by
    rw [hCat]
    exact List.mem_map.2 ⟨p, List.mem_range.2 hp, rfl⟩
  obtain ⟨s, hs, hsid⟩ := List.mem_map.1 hmem
  have hsome : (nextOf env song).isSome = true := by
    unfold nextOf
    rw [List.find?_isSome]
    exact ⟨s, hs, by simp [hsid, hId]⟩
  obtain ⟨next, hnext⟩ := Option.isSome_iff_exists.1 hsome
  refine ⟨next, hnext, ?_⟩
  rw [(nextOf_id hnext).1, hId]
  simp

theorem dense_nextOf_last {env : Env} {n : Nat} {song : Song} (hCat : DenseCatalog env n)
    (hId : song.id = Int.ofNat n) : nextOf env song = none := by
  unfold nextOf
  rw [List.find?_eq_none]
  intro s hs
  have hmem : s.id ∈ env.SONGS.map (fun s => s.id) := List.mem_map.2 ⟨s, hs, rfl⟩
  rw [hCat] at hmem
  obtain ⟨i, hi, hsi⟩ := List.mem_map.1 hmem
  have := List.mem_range.1 hi
  simp only [decide_eq_true_eq]
  rw [hId, ← hsi]
  simp
  omega


theorem playing_of_load (env : Env) (song : Song) (st : State) (hInv : ListenerInv st)
    (hC : st.ytContainer ≠ none) (hP : st.pendingLoads = []) :
    Playing (loadYoutubeEmbed env song st) song := by
  obtain ⟨-, -, -, f4, -, f6⟩ := loadYoutubeEmbed_fields env song st hC
  have hL : (loadYoutubeEmbed env song st).messageListeners
      = [{ ident := st.sessions, song := song }] := by
    rw [loadYoutubeEmbed_of_container env song st hC]
    exact (setupYouTubeListener_listeners song _ (listenerInv_of_same hInv rfl rfl rfl)).1
  refine ⟨loadYoutubeEmbed_inv env song st hInv, ⟨_, hL, rfl⟩, ?_, ?_⟩
  · rw [f4]
    simp
  · rw [f6, hP]

theorem dispatch_of_playing {env : Env} {e : MessageEvent} {st : State} {song : Song}
    (hPl : Playing st song) (hErr : IsError env e) :
    dispatchMessage env e st
      = playNext env song 800 (showToast "Video unavailable, skipping..." st) := by
  obtain ⟨-, ⟨h, hl, hs⟩, -, -⟩ := hPl
  unfold dispatchMessage
  rw [hl]
  show ytMessageHandler env h.song e st = _
  rw [hs]
  exact ytMessageHandler_error song st hErr

theorem skipStep_of_next {env : Env} {e : MessageEvent} {st : State} {song next : Song}
    (hPl : Playing st song) (hErr : IsError env e) (hNext : nextOf env song = some next) :
    ∃ st1, skipStep env e st = some (next, st1) ∧ Playing st1 next := by
  have hd := dispatch_of_playing hPl hErr
  obtain ⟨hInv, -, hC, hP⟩ := hPl
  obtain ⟨-, p2, -, p4⟩ := playNext_fields 800
    (showToast "Video unavailable, skipping..." st) hNext
  have hpend : (dispatchMessage env e st).pendingLoads = [{ delay := 800, song := next }] := by
    rw [hd, p2]
    show st.pendingLoads ++ _ = _
    rw [hP]
    rfl
  have hC1 : (dispatchMessage env e st).ytContainer ≠ none := by
    rw [hd]
    exact p4 hC
  have hInv1 : ListenerInv (dispatchMessage env e st) := by
    obtain ⟨a1, a2, a3⟩ := foldl_handlers_listeners env e st.messageListeners st
    exact listenerInv_of_same hInv a1 a2 a3
  refine ⟨fireTimer env { delay := 800, song := next } (dispatchMessage env e st), ?_, ?_⟩
  · unfold skipStep
    rw [hpend]
  · unfold fireTimer
    apply playing_of_load
    · exact listenerInv_of_same hInv1 rfl rfl rfl
    · exact hC1
    · show (dispatchMessage env e st).pendingLoads.erase _ = []
      rw [hpend]
      simp

theorem skipStep_of_last {env : Env} {e : MessageEvent} {st : State} {song : Song}
    (hPl : Playing st song) (hErr : IsError env e) (hLast : nextOf env song = none) :
    skipStep env e st = none := by
  have hd := dispatch_of_playing hPl hErr
  obtain ⟨-, -, -, hP⟩ := hPl
  rw [playNext_of_last 800 _ hLast] at hd
  unfold skipStep
  rw [hd]
  show (match st.pendingLoads with
    | [] => none
    | t :: _ => some (t.song, fireTimer env t (showToast "Video unavailable, skipping..." st)))
    = none
  rw [hP]

theorem skipRun_of_playing {env : Env} {e : MessageEvent} {n : Nat} (hCat : DenseCatalog env n)
    (hErr : IsError env e) (k : Nat) :
    ∀ (p fuel : Nat) (song : Song) (st : State), p + k = n → song.id = Int.ofNat p →
      Playing st song → k < fuel →
      skipRun env e fuel st
        = ((List.range k).map (fun i => Int.ofNat p + 1 + Int.ofNat i), true) := by
  induction k with
  | zero =>
    intro p fuel song st hpk hId hPl hF
    have hpn : p = n := by omega
    subst hpn
    obtain ⟨f, rfl⟩ : ∃ f, fuel = f + 1 := ⟨fuel - 1, by omega⟩
    unfold skipRun
    rw [skipStep_of_last hPl hErr (dense_nextOf_last hCat hId)]
    rfl
  | succ k ih =>
    intro p fuel song st hpk hId hPl hF
    obtain ⟨f, rfl⟩ : ∃ f, fuel = f + 1 := ⟨fuel - 1, by omega⟩
    obtain ⟨next, hNext, hnid⟩ := dense_nextOf hCat hId (by omega : p < n)
    obtain ⟨st1, hs, hPl1⟩ := skipStep_of_next hPl hErr hNext
    unfold skipRun
    rw [hs]
    simp only
    rw [ih (p + 1) f next st1 (by omega) hnid hPl1 (by omega), hnid]
    simp only [List.range_succ_eq_map, List.map_cons, List.map_map, Prod.mk.injEq, and_true]
    refine congrArg₂ List.cons (by simp) ?_
    apply List.map_congr_left
    intro i _
    simp
    omega


/-! ## Font size, song of the day, skip-forward loop: claims -/

/-- C21: the code at the failing input. A missing or empty stored value gives
16, but a stored text without a leading integer, such as `abc`, gives `NaN`,
not 16, and the `A+` and `A-` clicks leave it `NaN`; a text that only starts
with digits gives those digits (`12px` gives 12, `1.5` gives 1). -/
theorem fontSize_unparseable_is_NaN :
    fontSize emptyStore = some 16
    ∧ fontSize (fontStore "") = some 16
    ∧ fontSize (fontStore "18") = some 18
    ∧ fontSize (fontStore "abc") = none
    ∧ fontSize (fontStore "[16]") = none
    ∧ fontIncrease (fontSize (fontStore "abc")) = none
    ∧ fontDecrease (fontSize (fontStore "abc")) = none
    ∧ fontSize (fontStore "12px") = some 12
    ∧ fontSize (fontStore "1.5") = some 1 := by
  decide

/-- C22. On a catalog with the positions 1 to `n`, when the song at position `p`
is started in a reachable state with the player's container on the page and no
load pending, and every song started reports an error, the loop starts
`p + 1`, ..., `n` in this order and stops by itself: with any fuel above `n - p`
the run is the same. It makes `n - p` advances, the positions started increase
strictly, so none is started twice, and all lie above `p`. -/
theorem error_loop_bounded (env : Env) (st0 : State) (song : Song) (e : MessageEvent)
    (n p fuel : Nat) (hCat : DenseCatalog env n) (hR : Reachable env st0)
    (hC : st0.ytContainer ≠ none) (hP : st0.pendingLoads = []) (hErr : IsError env e)
    (hId : song.id = Int.ofNat p) (hp : p ≤ n) (hF : n - p < fuel) :
    skipRun env e fuel (loadYoutubeEmbed env song st0)
      = ((List.range (n - p)).map (fun i => Int.ofNat p + 1 + Int.ofNat i), true)
    ∧ (skipRun env e fuel (loadYoutubeEmbed env song st0)).1.length = n - p
    ∧ (skipRun env e fuel (loadYoutubeEmbed env song st0)).1.Pairwise (fun a b => a < b)
    ∧ ∀ x ∈ (skipRun env e fuel (loadYoutubeEmbed env song st0)).1,
        Int.ofNat p < x ∧ x ≤ Int.ofNat n := by
  have hPl := playing_of_load env song st0 (reachable_inv hR) hC hP
  have hrun := skipRun_of_playing hCat hErr (n - p) p fuel song _ (by omega) hId hPl hF
  rw [hrun]
  refine ⟨rfl, by simp, ?_, ?_⟩
  · rw [List.pairwise_map]
    apply List.Pairwise.imp _ (List.pairwise_lt_range (n - p))
    intro a b hab
    simp
    omega
  · intro x hx
    obtain ⟨i, hi, rfl⟩ := List.mem_map.1 hx
    have := List.mem_range.1 hi
    simp
    omega

/-- C22 on the catalog 1..4 with song 2 started: songs 3 and 4 are started and
the loop stops. -/
theorem error_loop_bounded_witness :
    DenseCatalog (sampleEnv 4) 4
    ∧ Reachable (sampleEnv 4)
        (run (sampleEnv 4) [.openSong (sampleSong 2)] (startup (sampleEnv 4) emptyStore))
    ∧ IsError (sampleEnv 4) (MessageEvent.mk (.text errorText) 0)
    ∧ skipRun (sampleEnv 4) (MessageEvent.mk (.text errorText) 0) 5
        (loadYoutubeEmbed (sampleEnv 4) (sampleSong 2)
          (run (sampleEnv 4) [.openSong (sampleSong 2)] (startup (sampleEnv 4) emptyStore)))
        = ([3, 4], true) :=
  ⟨rfl, ⟨emptyStore, _, rfl⟩, ⟨_, rfl, rfl⟩,
    (error_loop_bounded (sampleEnv 4)
      (run (sampleEnv 4) [.openSong (sampleSong 2)] (startup (sampleEnv 4) emptyStore))
      (sampleSong 2) (MessageEvent.mk (.text errorText) 0) 4 2 5 rfl ⟨emptyStore, _, rfl⟩
      (by decide) rfl ⟨_, rfl, rfl⟩ rfl (by decide) (by decide)).1.trans rfl⟩

/-- C23. For every date text the hash is the fold of `31 * hash + code` over the
code units, wrapped to 32 bits after each round, so it lies between `-2^31` and
`2^31 - 1`. On a catalog that is not empty `getSongOfTheDay` returns the entry
at the index `|hash| mod length` of that hash, an index below the length and an
entry of the catalog; for the hash `-2^31` it is the entry at `2^31 mod length`.
The result is the same for the same text. -/
theorem song_of_the_day_in_catalog (env : Env) (dateStr : String) (h : env.SONGS ≠ []) :
    dateHash dateStr
        = (codeUnits dateStr).foldl (fun hash code => toInt32 (31 * hash + Int.ofNat code)) 0
    ∧ -2147483648 ≤ dateHash dateStr ∧ dateHash dateStr < 2147483648
    ∧ (dateHash dateStr).natAbs % env.SONGS.length < env.SONGS.length
    ∧ (-2147483648 : Int).natAbs % env.SONGS.length < env.SONGS.length
    ∧ getSongOfTheDay env dateStr
        = env.SONGS[((codeUnits dateStr).foldl
            (fun hash code => toInt32 (31 * hash + Int.ofNat code)) 0).natAbs
              % env.SONGS.length]?
    ∧ (∃ song, getSongOfTheDay env dateStr = some song ∧ song ∈ env.SONGS
        ∧ env.SONGS[(dateHash dateStr).natAbs % env.SONGS.length]? = some song)
    ∧ (dateHash dateStr = -2147483648 →
        getSongOfTheDay env dateStr = env.SONGS[2147483648 % env.SONGS.length]?
        ∧ ∃ song, getSongOfTheDay env dateStr = some song ∧ song ∈ env.SONGS)
    ∧ ∀ other : String, other = dateStr →
        getSongOfTheDay env other = getSongOfTheDay env dateStr := by
  have hlen : 0 < env.SONGS.length := List.length_pos.2 h
  obtain ⟨r1, r2⟩ := foldl_hashStep_range (codeUnits dateStr) 0 (by omega)
  have hi : (dateHash dateStr).natAbs % env.SONGS.length < env.SONGS.length :=
    Nat.mod_lt _ hlen
  have hget : getSongOfTheDay env dateStr
      = some env.SONGS[(dateHash dateStr).natAbs % env.SONGS.length] := by
    unfold getSongOfTheDay
    exact List.getElem?_eq_getElem hi
  have hex : ∃ song, getSongOfTheDay env dateStr = some song ∧ song ∈ env.SONGS :=
    ⟨_, hget, List.getElem_mem _⟩
  refine ⟨foldl_hashStep_eq _ 0, r1, r2, hi, Nat.mod_lt _ hlen, ?_, ?_, ?_, ?_⟩
  · rw [← foldl_hashStep_eq _ 0]
    rfl
  · exact ⟨_, hget, List.getElem_mem _, List.getElem?_eq_getElem hi⟩
  · intro hmin
    refine ⟨?_, hex⟩
    unfold getSongOfTheDay
    rw [hmin]
    rfl
  · intro other ho
    rw [ho]

set_option maxRecDepth 4000 in
/-- C23 on the catalog 1..5: a text whose hash is `-2^31` has index
`2^31 mod 5 = 3` and gives the fourth song; the date text `Wed Nov 04 2026`
has hash `-1435653815`, index 0, and gives the first song. -/
theorem song_of_the_day_in_catalog_witness :
    (sampleEnv 5).SONGS ≠ []
    ∧ dateHash "polygenelubricants" = -2147483648
    ∧ getSongOfTheDay (sampleEnv 5) "polygenelubricants" = some (sampleSong 4)
    ∧ dateHash "Wed Nov 04 2026" = -1435653815
    ∧ getSongOfTheDay (sampleEnv 5) "Wed Nov 04 2026" = some (sampleSong 1) :=
  ⟨by decide, by decide,
    (song_of_the_day_in_catalog (sampleEnv 5) "polygenelubricants"
      (by decide)).2.2.2.2.2.1.trans (by decide),
    by decide,
    (song_of_the_day_in_catalog (sampleEnv 5) "Wed Nov 04 2026"
      (by decide)).2.2.2.2.2.1.trans (by decide)⟩

end BhimGeet
